import Mathlib

/-!
Verification development for the MIDImyFACE relay server (src/server.js).

The file embeds the session registry and relay engine shallowly:

* JavaScript dynamic values are restricted to the shapes the relay actually
  inspects (`JVal`), with `ToNumber` coercion modelled for the integral
  fragment the relay handles.
* JS `Map` and `Set` become insertion-ordered association lists / lists,
  matching `Map.set` (replace in place, else append), `Map.get` (first
  match), `Map.delete`, `Set.add` (append if absent) and `Set.delete`.
* The mutable per-socket fields (`ws._id`, `ws._sid`, ...) live in a
  connection table keyed by an abstract connection handle (`Nat`).
* `crypto.randomUUID()` is modelled by a fresh counter (`nextUuid`).
* Outbound `ws.send` attempts are logged in `sent`; `ws.close(code)` calls
  are logged in `closeCalls`.  `Date.now()` is threaded in as `now`.

Each message/close handler of src/server.js is translated function by
function, and the server's event loop becomes the step function
`applyEvent` together with the reachability predicate `Reachable`.
-/

namespace Relay

/-- JavaScript dynamic values, restricted to the shapes the relay inspects:
undefined, null, booleans, integral numbers, NaN, strings, and opaque
objects (only passed through verbatim). -/
inductive JVal : Type
  | undef
  | vnull
  | vbool (b : Bool)
  | vnum (n : Int)
  | vnan
  | vstr (s : String)
  | vobj (tag : Nat)
deriving DecidableEq

/-- JS truthiness for `JVal` (falsy: undefined, null, false, 0, NaN, ""). -/
def truthy : JVal → Bool
  | .undef => false
  | .vnull => false
  | .vbool b => b
  | .vnum n => decide (n ≠ 0)
  | .vnan => false
  | .vstr s => decide (s ≠ "")
  | .vobj _ => true

/-- Read a decimal digit. -/
def digitVal (c : Char) : Option Nat :=
  if c.isDigit then some (c.toNat - 48) else none

/-- Accumulate a string of decimal digits; `none` when a non-digit occurs. -/
def digitsToNat : List Char → Nat → Option Nat
  | [], acc => some acc
  | c :: cs, acc =>
      match digitVal c with
      | some d => digitsToNat cs (acc * 10 + d)
      | none => none

/-- JS `ToNumber` on strings, for the integral-literal fragment the relay
handles: empty string is 0, an optional sign followed by decimal digits is
that integer, anything else is NaN (`none`). -/
def strToNum (s : String) : Option Int :=
  match s.data with
  | [] => some 0
  | '-' :: rest =>
      if rest = [] then none else (digitsToNat rest 0).map (fun n => -(n : Int))
  | '+' :: rest =>
      if rest = [] then none else (digitsToNat rest 0).map (fun n => (n : Int))
  | cs => (digitsToNat cs 0).map (fun n => (n : Int))

/-- JS unary `+` (ToNumber); `none` models NaN. -/
def toNumber : JVal → Option Int
  | .undef => none
  | .vnull => some 0
  | .vbool b => some (if b then 1 else 0)
  | .vnum n => some n
  | .vnan => none
  | .vstr s => strToNum s
  | .vobj _ => none

/-- JS `+v || d`: the coerced number unless it is NaN or 0 (both falsy),
in which case the default `d`. -/
def jsOrNum (v : JVal) (d : Int) : Int :=
  match toNumber v with
  | none => d
  | some n => if n = 0 then d else n

/-- JS `s || d` for optional strings (absent and "" are falsy). -/
def orDefault : Option String → String → String
  | none, d => d
  | some s, d => if s = "" then d else s

/-- JS `s || null` for optional strings (a falsy value becomes null). -/
def orNullStr : Option String → Option String
  | none => none
  | some s => if s = "" then none else some s

/-- JS `Map.get`: first entry with the key. -/
def mapGet {α β : Type} [DecidableEq α] : List (α × β) → α → Option β
  | [], _ => none
  | (k, v) :: rest, k' => if k = k' then some v else mapGet rest k'

/-- JS `Map.set`: replace the entry in place when present, else append. -/
def mapSet {α β : Type} [DecidableEq α] : List (α × β) → α → β → List (α × β)
  | [], k, v => [(k, v)]
  | (k0, v0) :: rest, k, v =>
      if k0 = k then (k, v) :: rest else (k0, v0) :: mapSet rest k v

/-- JS `Map.delete`. -/
def mapDelete {α β : Type} [DecidableEq α] : List (α × β) → α → List (α × β)
  | [], _ => []
  | (k0, v0) :: rest, k =>
      if k0 = k then mapDelete rest k else (k0, v0) :: mapDelete rest k

/-- JS `Set.add` (insertion order preserved, no duplicates). -/
def setAdd (l : List Nat) (x : Nat) : List Nat :=
  if x ∈ l then l else l ++ [x]

/-- JS `Set.delete`. -/
def setRemove : List Nat → Nat → List Nat
  | [], _ => []
  | c :: rest, x => if c = x then setRemove rest x else c :: setRemove rest x

/-- Participant record `{id, name, connected}` (server.js line 63). -/
structure Participant : Type where
  id : Nat
  name : String
  connected : Bool
deriving DecidableEq

/-- Session value: `{clients:Set<ws>, director:ws|null, participants:Map}`
(server.js line 27). -/
structure Session : Type where
  clients : List Nat
  director : Option Nat
  participants : List (Nat × Participant)
deriving DecidableEq

/-- The per-socket mutable fields the server attaches (`ws._id`, `ws._sid`,
`ws._name`, `ws._role`, `ws._client_uuid`), plus the transport readyState
(1 = OPEN). All identity fields are undefined until a join succeeds. -/
structure Conn : Type where
  id : Option Nat
  sid : Option String
  name : Option String
  role : Option String
  clientUuid : Option String
  readyState : Nat
deriving DecidableEq

/-- A freshly upgraded socket: no identity, readyState OPEN. -/
def Conn.fresh : Conn :=
  ⟨none, none, none, none, none, 1⟩

/-- Normalized `note` sub-object of an outbound telemetry message
(server.js lines 88-90).  `chIn` is `none` when omitted; `some none`
models an included NaN (a truthy but non-numeric raw value). -/
structure NoteOut : Type where
  noteOn : Bool
  note : Int
  vel : Int
  chIn : Option (Option Int)
deriving DecidableEq

/-- Normalized `cc` sub-object of an outbound telemetry message
(server.js lines 94-96). -/
structure CCOut : Type where
  channel : Int
  cc : Int
  value : Int
deriving DecidableEq

/-- Outbound messages the server produces.  `fromId` is the wire field
`from`. -/
inductive OutMsg : Type
  | role (r : String)
  | presence (sessionId : String) (participants : List Participant)
  | telemetry (fromId : Option Nat) (name : Option String)
      (note : Option NoteOut) (cc : Option CCOut)
  | event (ty : String) (fromId : Option Nat) (name : Option String)
      (data : JVal) (tServer : Nat)
  | pong (ty : String) (tServer : Nat)
deriving DecidableEq

/-- Raw `note` sub-object of an inbound telemetry message; absent fields
are `JVal.undef`. -/
structure JNote : Type where
  noteOn : JVal
  note : JVal
  vel : JVal
  chIn : JVal
deriving DecidableEq

/-- Raw `cc` sub-object of an inbound telemetry message. -/
structure JCC : Type where
  channel : JVal
  cc : JVal
  value : JVal
deriving DecidableEq

/-- A decoded inbound message object.  Fields the dispatch and handlers
read; absent fields are `none` / `JVal.undef`. -/
structure InMsg : Type where
  type : String
  session_id : Option String := none
  sessionId : Option String := none
  name : Option String := none
  role : Option String := none
  password : Option String := none
  client_uuid : Option String := none
  note : Option JNote := none
  cc : Option JCC := none
  data : JVal := JVal.undef
deriving DecidableEq

/-- The parsed upgrade-URL query (server.js line 143). -/
structure Query : Type where
  session : Option String := none
deriving DecidableEq

/-- Whole-server state: the session registry, the connection table, the
UUID counter, and logs of outbound sends and close calls. -/
structure ServerState : Type where
  sessions : List (String × Session)
  conns : List (Nat × Conn)
  nextUuid : Nat
  sent : List (Nat × OutMsg)
  closeCalls : List (Nat × Nat)
deriving DecidableEq

/-- Environment configuration: `RELAY_PASSWORD` ("" = unset). -/
structure Config : Type where
  relayPassword : String
deriving DecidableEq

/-- Initial state: empty registry, no sockets. -/
def initState : ServerState :=
  ⟨[], [], 0, [], []⟩

/-- `json(ws, obj)` (server.js line 20): best-effort send, logged. -/
def json (st : ServerState) (c : Nat) (m : OutMsg) : ServerState :=
  { st with sent := st.sent ++ [(c, m)] }

/-- Transport readyState of a connection handle (0 when unknown). -/
def connReadyState (conns : List (Nat × Conn)) (c : Nat) : Nat :=
  match mapGet conns c with
  | some conn => conn.readyState
  | none => 0

/-- One iteration of the broadcast loop body
`c => { if (c.readyState === 1) json(c, obj); }`. -/
def broadcastStep (m : OutMsg) (s : ServerState) (c : Nat) : ServerState :=
  if connReadyState s.conns c = 1 then json s c m else s

/-- `broadcast(session, obj)` (server.js lines 23-25). -/
def broadcast (st : ServerState) (sess : Session) (m : OutMsg) : ServerState :=
  sess.clients.foldl (broadcastStep m) st

/-- `getSession(id)` (server.js lines 26-29): create-on-miss, then return. -/
def getSession (st : ServerState) (sid : String) : ServerState × Session :=
  match mapGet st.sessions sid with
  | some s => (st, s)
  | none =>
      let s : Session := ⟨[], none, []⟩
      ({ st with sessions := mapSet st.sessions sid s }, s)

/-- `assignDirector(session)` (server.js lines 30-36). -/
def assignDirector (st : ServerState) (sess : Session) : ServerState × Session :=
  match sess.director with
  | some _ => (st, sess)
  | none =>
      match sess.clients.head? with
      | some first =>
          (json st first (OutMsg.role "director"), { sess with director := some first })
      | none => (st, { sess with director := none })

/-- `presenceMsg(sid, session)` (server.js lines 37-41). -/
def presenceMsg (sid : String) (sess : Session) : OutMsg :=
  OutMsg.presence sid (sess.participants.map (fun p => p.2))

/-- Resolution of the session id at join time
(`data.session_id || data.sessionId || query.session || "default"`). -/
def resolvedSid (msg : InMsg) (q : Query) : String :=
  orDefault msg.session_id (orDefault msg.sessionId (orDefault q.session "default"))

/-- Resolution of the display name at join time (`data.name || "Performer"`). -/
def resolvedName (msg : InMsg) : String :=
  orDefault msg.name "Performer"

/-- Resolution of the role hint at join time (server.js line 46). -/
def resolvedRole (msg : InMsg) : String :=
  if msg.role = some "director" ∨ msg.role = some "host" then "director" else "performer"

/-- `join(ws, data, query)` (server.js lines 43-74). -/
def join (cfg : Config) (st : ServerState) (cid : Nat) (msg : InMsg) (q : Query) :
    ServerState :=
  let sid := resolvedSid msg q
  let name := resolvedName msg
  let role := resolvedRole msg
  let pwd := orDefault msg.password ""
  let client_uuid := orNullStr msg.client_uuid
  if cfg.relayPassword ≠ "" ∧ pwd ≠ cfg.relayPassword then
    { st with closeCalls := st.closeCalls ++ [(cid, 1008)] }
  else
    let res := getSession st sid
    let st1 := res.1
    let sess1 : Session := { res.2 with clients := setAdd res.2.clients cid }
    let newId := st1.nextUuid
    let conn0 := (mapGet st1.conns cid).getD Conn.fresh
    let conn1 : Conn :=
      { conn0 with id := some newId, sid := some sid, name := some name,
                   role := some role, clientUuid := client_uuid }
    let st2 : ServerState :=
      { st1 with nextUuid := st1.nextUuid + 1, conns := mapSet st1.conns cid conn1 }
    let sess2 : Session :=
      { sess1 with participants := mapSet sess1.participants newId ⟨newId, name, true⟩ }
    let res2 :=
      if role = "director" then
        (json st2 cid (OutMsg.role "director"), { sess2 with director := some cid })
      else
        let resA := assignDirector st2 sess2
        (if resA.2.director = some cid then resA.1
         else json resA.1 cid (OutMsg.role "performer"), resA.2)
    let st4 : ServerState := { res2.1 with sessions := mapSet res2.1.sessions sid res2.2 }
    broadcast st4 res2.2 (presenceMsg sid res2.2)

/-- Normalization of the `note` sub-object (server.js lines 88-90):
`on: !!n.on, note: +n.note || 0, vel: +n.vel || 0,
 chIn: n.chIn ? +n.chIn : undefined`. -/
def normNote (n : JNote) : NoteOut :=
  ⟨truthy n.noteOn, jsOrNum n.note 0, jsOrNum n.vel 0,
   if truthy n.chIn then some (toNumber n.chIn) else none⟩

/-- Normalization of the `cc` sub-object (server.js lines 94-96):
`channel: +c.channel || 1, cc: +c.cc || 11, value: +c.value || 0`. -/
def normCC (c : JCC) : CCOut :=
  ⟨jsOrNum c.channel 1, jsOrNum c.cc 11, jsOrNum c.value 0⟩

/-- `relayTelemetry(ws, data)` (server.js lines 77-100). -/
def relayTelemetry (st : ServerState) (cid : Nat) (msg : InMsg) : ServerState :=
  match (mapGet st.conns cid).bind (fun c => c.sid) with
  | none => st
  | some sid =>
      match mapGet st.sessions sid with
      | none => st
      | some sess =>
          let conn := (mapGet st.conns cid).getD Conn.fresh
          let out := OutMsg.telemetry conn.id conn.name
            (msg.note.map normNote) (msg.cc.map normCC)
          broadcast st sess out

/-- `relayEvent(ws, type, data)` (server.js lines 102-110). -/
def relayEvent (st : ServerState) (cid : Nat) (ty : String) (d : JVal) (now : Nat) :
    ServerState :=
  match (mapGet st.conns cid).bind (fun c => c.sid) with
  | none => st
  | some sid =>
      match mapGet st.sessions sid with
      | none => st
      | some sess =>
          let conn := (mapGet st.conns cid).getD Conn.fresh
          broadcast st sess (OutMsg.event ty conn.id conn.name d now)

/-- `close(ws)` (server.js lines 112-126). -/
def close (st : ServerState) (cid : Nat) : ServerState :=
  match (mapGet st.conns cid).bind (fun c => c.sid) with
  | none => st
  | some sid =>
      match mapGet st.sessions sid with
      | none => st
      | some sess =>
          let sess1 : Session := { sess with clients := setRemove sess.clients cid }
          let wsId := ((mapGet st.conns cid).getD Conn.fresh).id
          let sess2 : Session :=
            match wsId with
            | none => sess1
            | some pid =>
                match mapGet sess1.participants pid with
                | none => sess1
                | some p =>
                    let p' : Participant := { p with connected := false }
                    { sess1 with participants := mapSet sess1.participants pid p' }
          let res :=
            if sess2.director = some cid then
              assignDirector st { sess2 with director := none }
            else (st, sess2)
          let stB : ServerState :=
            { res.1 with sessions := mapSet res.1.sessions sid res.2 }
          let stC := broadcast stB res.2 (presenceMsg sid res.2)
          if res.2.clients.length = 0 then
            { stC with sessions := mapDelete stC.sessions sid }
          else stC

/-- The message types relayed verbatim (server.js lines 158-164). -/
def passthroughTypes : List String :=
  ["midi/cc", "midi/note_on", "midi/note_off", "gesture/update",
   "percussion/trigger", "envelope/update", "mode/change"]

/-- The `ws.on("message")` dispatch (server.js lines 150-172), after JSON
parsing succeeded (a parse failure or non-object produces no event at all). -/
def handleMessage (cfg : Config) (q : Query) (now : Nat) (st : ServerState)
    (cid : Nat) (msg : InMsg) : ServerState :=
  if msg.type = "join" then join cfg st cid msg q
  else if msg.type = "telemetry" then relayTelemetry st cid msg
  else if msg.type ∈ passthroughTypes then
    relayEvent st cid msg.type (if truthy msg.data then msg.data else JVal.vobj 0) now
  else if msg.type = "system/ping" ∨ msg.type = "ping" then
    json st cid (OutMsg.pong (if msg.type = "ping" then "pong" else "system/pong") now)
  else st

/-- Transport-level events driving the server. -/
inductive Event : Type
  | upgrade (c : Nat)
  | message (c : Nat) (msg : InMsg) (q : Query) (now : Nat)
  | transportClose (c : Nat)

/-- One step of the event loop.  `none` when the event cannot occur
(unknown handle, message or close on a non-open socket, duplicate
upgrade). On transport close the socket leaves the OPEN state before the
`close` handler runs. -/
def applyEvent (cfg : Config) (st : ServerState) : Event → Option ServerState
  | .upgrade c =>
      match mapGet st.conns c with
      | some _ => none
      | none => some { st with conns := mapSet st.conns c Conn.fresh }
  | .message c msg q now =>
      match mapGet st.conns c with
      | none => none
      | some conn =>
          if conn.readyState = 1 then some (handleMessage cfg q now st c msg) else none
  | .transportClose c =>
      match mapGet st.conns c with
      | none => none
      | some conn =>
          if conn.readyState = 1 then
            some (close { st with conns := mapSet st.conns c { conn with readyState := 3 } } c)
          else none

/-- States reachable by the server from startup. -/
inductive Reachable (cfg : Config) : ServerState → Prop
  | init : Reachable cfg initState
  | step : ∀ st e st', Reachable cfg st → applyEvent cfg st e = some st' →
      Reachable cfg st'

/-- Guard for single-join traces: a `join` message is only delivered on a
connection that has not joined yet. -/
def eventAllowedNR (st : ServerState) : Event → Bool
  | .message c msg _ _ =>
      if msg.type = "join" then
        decide (((mapGet st.conns c).bind (fun x => x.sid)) = none)
      else true
  | _ => true

/-- States reachable when every connection sends at most one join. -/
inductive ReachableNR (cfg : Config) : ServerState → Prop
  | init : ReachableNR cfg initState
  | step : ∀ st e st', ReachableNR cfg st → eventAllowedNR st e = true →
      applyEvent cfg st e = some st' → ReachableNR cfg st'

end Relay

namespace Relay

/-! ## Association list and set lemmas -/

theorem mapGet_mapSet {α β : Type} [DecidableEq α] (l : List (α × β)) (k k' : α) (v : β) :
    mapGet (mapSet l k v) k' = if k = k' then some v else mapGet l k' := by
  induction l with
  | nil => simp [mapGet, mapSet]
  | cons hd tl ih =>
      obtain ⟨k0, v0⟩ := hd
      by_cases h0 : k0 = k
      · subst h0
        by_cases h1 : k0 = k'
        · simp [mapSet, mapGet, h1]
        · simp [mapSet, mapGet, h1]
      · simp only [mapSet, if_neg h0, mapGet]
        by_cases h1 : k0 = k'
        · subst h1
          have : ¬ k = k0 := fun h => h0 h.symm
          simp [this, mapGet]
        · simp [mapGet, h1, ih]

theorem mapGet_mapDelete {α β : Type} [DecidableEq α] (l : List (α × β)) (k k' : α) :
    mapGet (mapDelete l k) k' = if k = k' then none else mapGet l k' := by
  induction l with
  | nil => simp [mapGet, mapDelete]
  | cons hd tl ih =>
      obtain ⟨k0, v0⟩ := hd
      by_cases h0 : k0 = k
      · subst h0
        by_cases h1 : k0 = k'
        · subst h1
          simp [mapDelete, mapGet, ih]
        · have : ¬ k0 = k' := h1
          simp [mapDelete, mapGet, ih, this]
      · simp only [mapDelete, if_neg h0, mapGet]
        by_cases h1 : k0 = k'
        · subst h1
          have hne : ¬ k = k0 := fun h => h0 h.symm
          simp [hne, mapGet]
        · simp [mapGet, h1, ih]

theorem mapSet_mapSet {α β : Type} [DecidableEq α] (l : List (α × β)) (k : α) (a b : β) :
    mapSet (mapSet l k a) k b = mapSet l k b := by
  induction l with
  | nil => simp [mapSet]
  | cons hd tl ih =>
      obtain ⟨k0, v0⟩ := hd
      by_cases h0 : k0 = k
      · subst h0
        simp [mapSet]
      · simp [mapSet, h0, ih]

theorem mapDelete_mapSet {α β : Type} [DecidableEq α] (l : List (α × β)) (k : α) (v : β) :
    mapDelete (mapSet l k v) k = mapDelete l k := by
  induction l with
  | nil => simp [mapSet, mapDelete]
  | cons hd tl ih =>
      obtain ⟨k0, v0⟩ := hd
      by_cases h0 : k0 = k
      · subst h0
        simp [mapSet, mapDelete]
      · simp [mapSet, h0, mapDelete, ih]

theorem mem_setAdd (l : List Nat) (x y : Nat) :
    y ∈ setAdd l x ↔ y ∈ l ∨ y = x := by
  unfold setAdd
  by_cases h : x ∈ l
  · simp only [if_pos h]
    constructor
    · exact fun hy => Or.inl hy
    · rintro (hy | rfl)
      · exact hy
      · exact h
  · simp [if_neg h]

theorem setAdd_ne_nil (l : List Nat) (x : Nat) : setAdd l x ≠ [] := by
  intro h
  have : x ∈ setAdd l x := (mem_setAdd l x x).2 (Or.inr rfl)
  rw [h] at this
  exact absurd this (List.not_mem_nil x)

theorem mem_setRemove (l : List Nat) (x y : Nat) :
    y ∈ setRemove l x ↔ y ∈ l ∧ y ≠ x := by
  induction l with
  | nil => simp [setRemove]
  | cons c tl ih =>
      have hstep : setRemove (c :: tl) x =
          if c = x then setRemove tl x else c :: setRemove tl x := rfl
      rw [hstep]
      by_cases h : c = x
      · rw [if_pos h, ih]
        subst h
        constructor
        · rintro ⟨hy, hyx⟩
          exact ⟨List.mem_cons_of_mem _ hy, hyx⟩
        · rintro ⟨hy, hyx⟩
          rcases List.mem_cons.mp hy with rfl | hy'
          · exact absurd rfl hyx
          · exact ⟨hy', hyx⟩
      · rw [if_neg h]
        simp only [List.mem_cons, ih]
        constructor
        · rintro (rfl | ⟨hy, hyx⟩)
          · exact ⟨Or.inl rfl, fun hcx => h hcx⟩
          · exact ⟨Or.inr hy, hyx⟩
        · rintro ⟨rfl | hy, hyx⟩
          · exact Or.inl rfl
          · exact Or.inr ⟨hy, hyx⟩

/-! ## Send-plumbing lemmas -/

/-- The member connections a broadcast loop actually reaches: those whose
transport is OPEN. -/
def openClients (conns : List (Nat × Conn)) (l : List Nat) : List Nat :=
  l.filter (fun c => decide (connReadyState conns c = 1))

theorem json_parts (st : ServerState) (c : Nat) (m : OutMsg) :
    (json st c m).sessions = st.sessions ∧ (json st c m).conns = st.conns ∧
      (json st c m).nextUuid = st.nextUuid ∧
      (json st c m).closeCalls = st.closeCalls ∧
      (json st c m).sent = st.sent ++ [(c, m)] :=
  ⟨rfl, rfl, rfl, rfl, rfl⟩

theorem broadcast_go (m : OutMsg) (l : List Nat) : ∀ st : ServerState,
    l.foldl (broadcastStep m) st =
      { st with sent := st.sent ++ (openClients st.conns l).map (fun c => (c, m)) } := by
  induction l with
  | nil =>
      intro st
      simp [openClients]
  | cons c cs ih =>
      intro st
      rw [List.foldl_cons]
      by_cases h : connReadyState st.conns c = 1
      · have hb : broadcastStep m st c = json st c m := by
          simp [broadcastStep, h]
        rw [hb, ih (json st c m)]
        simp [json, openClients, h]
      · have hb : broadcastStep m st c = st := by
          simp [broadcastStep, h]
        rw [hb, ih st]
        simp [openClients, h]

theorem broadcast_spec (st : ServerState) (sess : Session) (m : OutMsg) :
    broadcast st sess m =
      { st with sent :=
          st.sent ++ (openClients st.conns sess.clients).map (fun c => (c, m)) } :=
  broadcast_go m sess.clients st

theorem mem_openClients (conns : List (Nat × Conn)) (l : List Nat) (c : Nat) :
    c ∈ openClients conns l ↔ c ∈ l ∧ connReadyState conns c = 1 := by
  simp [openClients]

/-! ## assignDirector lemmas -/

/-- The director that `assignDirector` settles on (pure part). -/
def electedDirector (sess : Session) : Option Nat :=
  match sess.director with
  | some d => some d
  | none => sess.clients.head?

theorem assignDirector_of_some (st : ServerState) (sess : Session) (d : Nat)
    (h : sess.director = some d) : assignDirector st sess = (st, sess) := by
  unfold assignDirector
  rw [h]

theorem assignDirector_of_none_cons (st : ServerState) (sess : Session) (c : Nat)
    (cs : List Nat) (h : sess.director = none) (hc : sess.clients = c :: cs) :
    assignDirector st sess =
      (json st c (OutMsg.role "director"), { sess with director := some c }) := by
  unfold assignDirector
  rw [h, hc]
  rfl

theorem assignDirector_of_none_nil (st : ServerState) (sess : Session)
    (h : sess.director = none) (hc : sess.clients = []) :
    assignDirector st sess = (st, sess) := by
  cases sess with
  | mk cl dir parts =>
      simp only at h hc
      subst h
      subst hc
      rfl

theorem assignDirector_snd (st : ServerState) (sess : Session) :
    (assignDirector st sess).2 = { sess with director := electedDirector sess } := by
  unfold assignDirector electedDirector
  cases h : sess.director with
  | some d =>
      cases sess with
      | mk cl dir parts =>
          simp only at h
          subst h
          rfl
  | none =>
      cases hc : sess.clients.head? with
      | some c => rfl
      | none => rfl

theorem assignDirector_fst_parts (st : ServerState) (sess : Session) :
    (assignDirector st sess).1.sessions = st.sessions ∧
      (assignDirector st sess).1.conns = st.conns ∧
      (assignDirector st sess).1.nextUuid = st.nextUuid ∧
      (assignDirector st sess).1.closeCalls = st.closeCalls := by
  unfold assignDirector
  cases sess.director with
  | some d => exact ⟨rfl, rfl, rfl, rfl⟩
  | none =>
      cases sess.clients.head? with
      | some c => exact ⟨rfl, rfl, rfl, rfl⟩
      | none => exact ⟨rfl, rfl, rfl, rfl⟩

theorem assignDirector_fst_sent (st : ServerState) (sess : Session) :
    (assignDirector st sess).1.sent =
      st.sent ++
        (match sess.director, sess.clients.head? with
         | none, some f => [(f, OutMsg.role "director")]
         | _, _ => []) := by
  unfold assignDirector
  cases h : sess.director with
  | some d => simp
  | none =>
      cases hc : sess.clients.head? with
      | some c => simp [json]
      | none => simp

/-! ## getSession lemmas -/

theorem getSession_of_some (st : ServerState) (sid : String) (s : Session)
    (h : mapGet st.sessions sid = some s) : getSession st sid = (st, s) := by
  unfold getSession
  rw [h]

theorem getSession_of_none (st : ServerState) (sid : String)
    (h : mapGet st.sessions sid = none) :
    getSession st sid =
      ({ st with sessions := mapSet st.sessions sid ⟨[], none, []⟩ }, ⟨[], none, []⟩) := by
  unfold getSession
  rw [h]

end Relay

namespace Relay

theorem electedDirector_of_some (sess : Session) (d : Nat)
    (h : sess.director = some d) : electedDirector sess = some d := by
  unfold electedDirector
  rw [h]

theorem electedDirector_of_none (sess : Session)
    (h : sess.director = none) : electedDirector sess = sess.clients.head? := by
  unfold electedDirector
  rw [h]

/-! ## Explicit description of a successful join -/

/-- The session looked up (or about to be created) for an id. -/
def sessionAt (st : ServerState) (sid : String) : Session :=
  (mapGet st.sessions sid).getD ⟨[], none, []⟩

/-- The connection record after the join handler assigned identity. -/
def joinConn (conn0 : Conn) (newId : Nat) (sid name role : String)
    (cu : Option String) : Conn :=
  { conn0 with id := some newId, sid := some sid, name := some name,
               role := some role, clientUuid := cu }

/-- The session after membership and participant insertion, before the
role branch. -/
def joinPreSession (sess0 : Session) (cid newId : Nat) (name : String) : Session :=
  ⟨setAdd sess0.clients cid, sess0.director,
   mapSet sess0.participants newId ⟨newId, name, true⟩⟩

/-- The session a successful join writes back. -/
def joinSessionResult (sess0 : Session) (cid newId : Nat) (name role : String) :
    Session :=
  let sess2 := joinPreSession sess0 cid newId name
  if role = "director" then { sess2 with director := some cid }
  else { sess2 with director := electedDirector sess2 }

/-- The role messages a successful join emits, in order. -/
def joinRoleMsgs (sess2 : Session) (cid : Nat) (role : String) :
    List (Nat × OutMsg) :=
  if role = "director" then [(cid, OutMsg.role "director")]
  else
    (match sess2.director, sess2.clients.head? with
     | none, some f => [(f, OutMsg.role "director")]
     | _, _ => []) ++
    (if electedDirector sess2 = some cid then [] else [(cid, OutMsg.role "performer")])

/-- The full server state a successful join produces. -/
def joinResult (st : ServerState) (cid : Nat) (msg : InMsg) (q : Query) :
    ServerState :=
  let sid := resolvedSid msg q
  let name := resolvedName msg
  let role := resolvedRole msg
  let sess0 := sessionAt st sid
  let newId := st.nextUuid
  let conn1 := joinConn ((mapGet st.conns cid).getD Conn.fresh) newId sid name role
    (orNullStr msg.client_uuid)
  let sess2 := joinPreSession sess0 cid newId name
  let sess3 := joinSessionResult sess0 cid newId name role
  let conns' := mapSet st.conns cid conn1
  { sessions := mapSet st.sessions sid sess3,
    conns := conns',
    nextUuid := st.nextUuid + 1,
    sent := st.sent ++ joinRoleMsgs sess2 cid role
      ++ (openClients conns' sess3.clients).map (fun c => (c, presenceMsg sid sess3)),
    closeCalls := st.closeCalls }


theorem join_eq (cfg : Config) (st : ServerState) (cid : Nat) (msg : InMsg)
    (q : Query)
    (hp : ¬(cfg.relayPassword ≠ "" ∧ orDefault msg.password "" ≠ cfg.relayPassword)) :
    join cfg st cid msg q = joinResult st cid msg q := by
  unfold join
  rw [if_neg hp]
  cases hs : mapGet st.sessions (resolvedSid msg q) with
  | some s =>
      rw [getSession_of_some st (resolvedSid msg q) s hs]
      by_cases hrole : resolvedRole msg = "director"
      · simp [hrole, joinResult, joinSessionResult, joinPreSession, joinRoleMsgs,
          joinConn, sessionAt, hs, json, broadcast_spec, List.append_assoc]
      · simp only [if_neg hrole]
        set sess2 : Session :=
          (⟨setAdd s.clients cid, s.director, mapSet s.participants st.nextUuid ⟨st.nextUuid, resolvedName msg, true⟩⟩ : Session) with hsess2
        cases hdir : s.director with
        | some d =>
            have hd2 : sess2.director = some d := hdir
            rw [assignDirector_of_some _ sess2 d hd2]
            by_cases hdc : d = cid
            · subst hdc
              simp [hsess2, joinResult, joinSessionResult, joinPreSession,
                joinRoleMsgs, joinConn, sessionAt, hs, hdir, hrole, json,
                broadcast_spec, electedDirector, List.append_assoc]
            · simp [hsess2, joinResult, joinSessionResult, joinPreSession,
                joinRoleMsgs, joinConn, sessionAt, hs, hdir, hrole, hdc, json,
                broadcast_spec, electedDirector, List.append_assoc]
        | none =>
            have hd2 : sess2.director = none := hdir
            cases hcl : sess2.clients with
            | nil =>
                exfalso
                have hmem : cid ∈ sess2.clients := by
                  rw [hsess2]
                  exact (mem_setAdd s.clients cid cid).2 (Or.inr rfl)
                rw [hcl] at hmem
                exact absurd hmem (List.not_mem_nil cid)
            | cons f rest =>
                rw [assignDirector_of_none_cons _ sess2 f rest hd2 hcl]
                have hhead : sess2.clients.head? = some f := by rw [hcl]; rfl
                have hh2 : (setAdd s.clients cid).head? = some f := hhead
                by_cases hfc : f = cid
                · subst hfc
                  simp [hsess2, joinResult, joinSessionResult, joinPreSession,
                    joinRoleMsgs, joinConn, sessionAt, hs, hdir, hrole, json,
                    broadcast_spec, electedDirector, hh2, List.append_assoc]
                · simp [hsess2, joinResult, joinSessionResult, joinPreSession,
                    joinRoleMsgs, joinConn, sessionAt, hs, hdir, hrole, hfc, json,
                    broadcast_spec, electedDirector, hh2, List.append_assoc]
  | none =>
      rw [getSession_of_none st (resolvedSid msg q) hs]
      by_cases hrole : resolvedRole msg = "director"
      · simp [hrole, joinResult, joinSessionResult, joinPreSession, joinRoleMsgs,
          joinConn, sessionAt, hs, json, broadcast_spec, mapSet_mapSet,
          List.append_assoc]
      · simp only [if_neg hrole]
        set sess2 : Session :=
          (⟨setAdd ([] : List Nat) cid, none, mapSet ([] : List (Nat × Participant)) st.nextUuid ⟨st.nextUuid, resolvedName msg, true⟩⟩ : Session) with hsess2
        have hd2 : sess2.director = none := rfl
        have hcl : sess2.clients = [cid] := by rw [hsess2]; simp [setAdd]
        rw [assignDirector_of_none_cons _ sess2 cid ([] : List Nat) hd2 hcl]
        simp [hsess2, joinResult, joinSessionResult, joinPreSession, joinRoleMsgs,
          joinConn, sessionAt, hs, hrole, json, broadcast_spec, electedDirector,
          mapSet_mapSet, setAdd, List.append_assoc]


theorem head?_some_eq_cons (l : List Nat) (f : Nat) (h : l.head? = some f) :
    l = f :: l.tail := by
  cases l with
  | nil => simp at h
  | cons a t =>
      simp only [List.head?_cons, Option.some.injEq] at h
      rw [h]
      rfl

/-! ## Explicit description of the close handler -/

/-- The session after membership removal and the participant flip. -/
def closeSession2 (sess : Session) (cid : Nat) (wsId : Option Nat) : Session :=
  let sess1 : Session := { sess with clients := setRemove sess.clients cid }
  match wsId with
  | none => sess1
  | some pid =>
      match mapGet sess1.participants pid with
      | none => sess1
      | some p =>
          let p' : Participant := { p with connected := false }
          { sess1 with participants := mapSet sess1.participants pid p' }

/-- The session the close handler writes back (after director re-election). -/
def closeSessionResult (sess2 : Session) (cid : Nat) : Session :=
  if sess2.director = some cid then { sess2 with director := sess2.clients.head? }
  else sess2

/-- The role messages the close handler emits. -/
def closeRoleMsgs (sess2 : Session) (cid : Nat) : List (Nat × OutMsg) :=
  if sess2.director = some cid then
    match sess2.clients.head? with
    | some f => [(f, OutMsg.role "director")]
    | none => []
  else []

/-- The full server state the close handler produces when the connection
had joined an existing session. -/
def closeResult (st : ServerState) (cid : Nat) (sid : String) (sess : Session) :
    ServerState :=
  let sess2 := closeSession2 sess cid ((mapGet st.conns cid).getD Conn.fresh).id
  let sess3 := closeSessionResult sess2 cid
  { sessions := if sess3.clients.length = 0 then mapDelete st.sessions sid
                else mapSet st.sessions sid sess3,
    conns := st.conns,
    nextUuid := st.nextUuid,
    sent := st.sent ++ closeRoleMsgs sess2 cid
      ++ (openClients st.conns sess3.clients).map (fun c => (c, presenceMsg sid sess3)),
    closeCalls := st.closeCalls }

theorem close_of_unjoined (st : ServerState) (cid : Nat)
    (hc : (mapGet st.conns cid).bind (fun c => c.sid) = none) :
    close st cid = st := by
  unfold close
  simp only [hc]

theorem close_of_no_session (st : ServerState) (cid : Nat) (sid : String)
    (hc : (mapGet st.conns cid).bind (fun c => c.sid) = some sid)
    (hs : mapGet st.sessions sid = none) :
    close st cid = st := by
  unfold close
  simp only [hc, hs]

theorem close_eq (st : ServerState) (cid : Nat) (sid : String) (sess : Session)
    (hc : (mapGet st.conns cid).bind (fun c => c.sid) = some sid)
    (hs : mapGet st.sessions sid = some sess) :
    close st cid = closeResult st cid sid sess := by
  unfold close
  simp only [hc, hs]
  cases hid : ((mapGet st.conns cid).getD Conn.fresh).id with
  | none =>
      by_cases hdc : sess.director = some cid
      · cases hhr : (setRemove sess.clients cid).head? with
        | some f =>
            have hlen : setRemove sess.clients cid ≠ [] := by
              intro hn
              rw [hn] at hhr
              simp at hhr
            simp [assignDirector, closeResult, closeSession2, closeSessionResult,
              closeRoleMsgs, hid, hdc, hhr, hlen, broadcast_spec, json,
              mapDelete_mapSet, List.append_assoc]
        | none =>
            have hnil : setRemove sess.clients cid = [] := by
              rw [List.head?_eq_none_iff] at hhr
              exact hhr
            simp [assignDirector, closeResult, closeSession2, closeSessionResult,
              closeRoleMsgs, hid, hdc, hhr, hnil, broadcast_spec, json,
              mapDelete_mapSet, List.append_assoc]
      · by_cases hlen : setRemove sess.clients cid = [] <;>
          simp [assignDirector, closeResult, closeSession2, closeSessionResult,
            closeRoleMsgs, hid, hdc, hlen, broadcast_spec, json,
            mapDelete_mapSet, List.append_assoc]
  | some pid =>
      cases hpp : mapGet sess.participants pid with
      | none =>
          by_cases hdc : sess.director = some cid
          · cases hhr : (setRemove sess.clients cid).head? with
            | some f =>
                have hlen : setRemove sess.clients cid ≠ [] := by
                  intro hn
                  rw [hn] at hhr
                  simp at hhr
                simp [assignDirector, closeResult, closeSession2, closeSessionResult,
                  closeRoleMsgs, hid, hpp, hdc, hhr, hlen, broadcast_spec, json,
                  mapDelete_mapSet, List.append_assoc]
            | none =>
                have hnil : setRemove sess.clients cid = [] := by
                  rw [List.head?_eq_none_iff] at hhr
                  exact hhr
                simp [assignDirector, closeResult, closeSession2, closeSessionResult,
                  closeRoleMsgs, hid, hpp, hdc, hhr, hnil, broadcast_spec, json,
                  mapDelete_mapSet, List.append_assoc]
          · by_cases hlen : setRemove sess.clients cid = [] <;>
              simp [assignDirector, closeResult, closeSession2, closeSessionResult,
                closeRoleMsgs, hid, hpp, hdc, hlen, broadcast_spec, json,
                mapDelete_mapSet, List.append_assoc]
      | some p =>
          by_cases hdc : sess.director = some cid
          · cases hhr : (setRemove sess.clients cid).head? with
            | some f =>
                have hlen : setRemove sess.clients cid ≠ [] := by
                  intro hn
                  rw [hn] at hhr
                  simp at hhr
                simp [assignDirector, closeResult, closeSession2, closeSessionResult,
                  closeRoleMsgs, hid, hpp, hdc, hhr, hlen, broadcast_spec, json,
                  mapDelete_mapSet, List.append_assoc]
            | none =>
                have hnil : setRemove sess.clients cid = [] := by
                  rw [List.head?_eq_none_iff] at hhr
                  exact hhr
                simp [assignDirector, closeResult, closeSession2, closeSessionResult,
                  closeRoleMsgs, hid, hpp, hdc, hhr, hnil, broadcast_spec, json,
                  mapDelete_mapSet, List.append_assoc]
          · by_cases hlen : setRemove sess.clients cid = [] <;>
              simp [assignDirector, closeResult, closeSession2, closeSessionResult,
                closeRoleMsgs, hid, hpp, hdc, hlen, broadcast_spec, json,
                mapDelete_mapSet, List.append_assoc]

end Relay

namespace Relay

/-! ## Relay observation lemmas -/

theorem relayTelemetry_of_unjoined (st : ServerState) (cid : Nat) (msg : InMsg)
    (hc : (mapGet st.conns cid).bind (fun c => c.sid) = none) :
    relayTelemetry st cid msg = st := by
  unfold relayTelemetry
  simp only [hc]

theorem relayTelemetry_of_no_session (st : ServerState) (cid : Nat) (msg : InMsg)
    (sid : String)
    (hc : (mapGet st.conns cid).bind (fun c => c.sid) = some sid)
    (hs : mapGet st.sessions sid = none) :
    relayTelemetry st cid msg = st := by
  unfold relayTelemetry
  simp only [hc, hs]

theorem relayTelemetry_eq (st : ServerState) (cid : Nat) (msg : InMsg)
    (sid : String) (sess : Session)
    (hc : (mapGet st.conns cid).bind (fun c => c.sid) = some sid)
    (hs : mapGet st.sessions sid = some sess) :
    relayTelemetry st cid msg =
      { st with sent := st.sent ++ (openClients st.conns sess.clients).map (fun c => (c, OutMsg.telemetry ((mapGet st.conns cid).getD Conn.fresh).id ((mapGet st.conns cid).getD Conn.fresh).name (msg.note.map normNote) (msg.cc.map normCC))) } := by
  unfold relayTelemetry
  simp only [hc, hs]
  rw [broadcast_spec]

theorem relayEvent_of_unjoined (st : ServerState) (cid : Nat) (ty : String)
    (d : JVal) (now : Nat)
    (hc : (mapGet st.conns cid).bind (fun c => c.sid) = none) :
    relayEvent st cid ty d now = st := by
  unfold relayEvent
  simp only [hc]

theorem relayEvent_of_no_session (st : ServerState) (cid : Nat) (ty : String)
    (d : JVal) (now : Nat) (sid : String)
    (hc : (mapGet st.conns cid).bind (fun c => c.sid) = some sid)
    (hs : mapGet st.sessions sid = none) :
    relayEvent st cid ty d now = st := by
  unfold relayEvent
  simp only [hc, hs]

theorem relayEvent_eq (st : ServerState) (cid : Nat) (ty : String)
    (d : JVal) (now : Nat) (sid : String) (sess : Session)
    (hc : (mapGet st.conns cid).bind (fun c => c.sid) = some sid)
    (hs : mapGet st.sessions sid = some sess) :
    relayEvent st cid ty d now =
      { st with sent := st.sent ++ (openClients st.conns sess.clients).map (fun c => (c, OutMsg.event ty ((mapGet st.conns cid).getD Conn.fresh).id ((mapGet st.conns cid).getD Conn.fresh).name d now)) } := by
  unfold relayEvent
  simp only [hc, hs]
  rw [broadcast_spec]

/-- Every handler other than join leaves registry, connection table,
uuid counter and close log unchanged. -/
theorem handleMessage_nonjoin_frame (cfg : Config) (q : Query) (now : Nat)
    (st : ServerState) (cid : Nat) (msg : InMsg) (hj : msg.type ≠ "join") :
    (handleMessage cfg q now st cid msg).sessions = st.sessions ∧
      (handleMessage cfg q now st cid msg).conns = st.conns ∧
      (handleMessage cfg q now st cid msg).nextUuid = st.nextUuid ∧
      (handleMessage cfg q now st cid msg).closeCalls = st.closeCalls := by
  unfold handleMessage
  rw [if_neg hj]
  by_cases ht : msg.type = "telemetry"
  · rw [if_pos ht]
    cases hc : (mapGet st.conns cid).bind (fun c => c.sid) with
    | none =>
        rw [relayTelemetry_of_unjoined st cid msg hc]
        exact ⟨rfl, rfl, rfl, rfl⟩
    | some sid =>
        cases hs : mapGet st.sessions sid with
        | none =>
            rw [relayTelemetry_of_no_session st cid msg sid hc hs]
            exact ⟨rfl, rfl, rfl, rfl⟩
        | some sess =>
            rw [relayTelemetry_eq st cid msg sid sess hc hs]
            exact ⟨rfl, rfl, rfl, rfl⟩
  · rw [if_neg ht]
    by_cases hpt : msg.type ∈ passthroughTypes
    · rw [if_pos hpt]
      cases hc : (mapGet st.conns cid).bind (fun c => c.sid) with
      | none =>
          rw [relayEvent_of_unjoined st cid msg.type _ now hc]
          exact ⟨rfl, rfl, rfl, rfl⟩
      | some sid =>
          cases hs : mapGet st.sessions sid with
          | none =>
              rw [relayEvent_of_no_session st cid msg.type _ now sid hc hs]
              exact ⟨rfl, rfl, rfl, rfl⟩
          | some sess =>
              rw [relayEvent_eq st cid msg.type _ now sid sess hc hs]
              exact ⟨rfl, rfl, rfl, rfl⟩
    · rw [if_neg hpt]
      by_cases hping : msg.type = "system/ping" ∨ msg.type = "ping"
      · rw [if_pos hping]
        exact ⟨rfl, rfl, rfl, rfl⟩
      · rw [if_neg hping]
        exact ⟨rfl, rfl, rfl, rfl⟩

/-! ## The session well-formedness invariant (claim C1) -/

/-- Every registered session has a non-empty connection set and a director
who is a member of it. -/
def sessionsWF (st : ServerState) : Prop :=
  ∀ sid sess, mapGet st.sessions sid = some sess →
    sess.clients ≠ [] ∧ ∃ d, sess.director = some d ∧ d ∈ sess.clients

theorem sessionsWF_of_eq (st st' : ServerState)
    (h : st'.sessions = st.sessions) (hwf : sessionsWF st) : sessionsWF st' := by
  intro sid sess hlook
  rw [h] at hlook
  exact hwf sid sess hlook

theorem sessionsWF_join (cfg : Config) (st : ServerState) (cid : Nat)
    (msg : InMsg) (q : Query) (hwf : sessionsWF st) :
    sessionsWF (join cfg st cid msg q) := by
  by_cases hp : cfg.relayPassword ≠ "" ∧ orDefault msg.password "" ≠ cfg.relayPassword
  · unfold join
    rw [if_pos hp]
    exact sessionsWF_of_eq st _ rfl hwf
  · rw [join_eq cfg st cid msg q hp]
    intro sid' sess' hlook
    unfold joinResult at hlook
    simp only at hlook
    rw [mapGet_mapSet] at hlook
    by_cases hsid : resolvedSid msg q = sid'
    · rw [if_pos hsid] at hlook
      cases hlook
      constructor
      · unfold joinSessionResult joinPreSession
        by_cases hrole : resolvedRole msg = "director" <;>
          simp [hrole, setAdd_ne_nil]
      · unfold joinSessionResult joinPreSession
        by_cases hrole : resolvedRole msg = "director"
        · refine ⟨cid, ?_, ?_⟩
          · simp [hrole]
          · simp [hrole, mem_setAdd]
        · simp only [if_neg hrole]
          cases hdir : (sessionAt st (resolvedSid msg q)).director with
          | some d =>
              refine ⟨d, ?_, ?_⟩
              · simp [electedDirector, hdir]
              · have hd : d ∈ (sessionAt st (resolvedSid msg q)).clients := by
                  unfold sessionAt
                  cases hsess : mapGet st.sessions (resolvedSid msg q) with
                  | none =>
                      unfold sessionAt at hdir
                      rw [hsess] at hdir
                      simp at hdir
                  | some s0 =>
                      have := (hwf (resolvedSid msg q) s0 hsess).2
                      obtain ⟨d0, hd0, hd0m⟩ := this
                      unfold sessionAt at hdir
                      rw [hsess] at hdir
                      simp only [Option.getD_some] at hdir ⊢
                      rw [hdir] at hd0
                      cases hd0
                      exact hd0m
                simp only [mem_setAdd]
                exact Or.inl hd
          | none =>
              have hne := setAdd_ne_nil (sessionAt st (resolvedSid msg q)).clients cid
              cases hcl : (setAdd (sessionAt st (resolvedSid msg q)).clients cid) with
              | nil => exact absurd hcl hne
              | cons a l =>
                  refine ⟨a, ?_, ?_⟩
                  · simp [electedDirector, hdir, hcl]
                  · simp [hcl]
    · rw [if_neg hsid] at hlook
      exact hwf sid' sess' hlook

theorem closeSession2_clients (sess : Session) (cid : Nat) (wsId : Option Nat) :
    (closeSession2 sess cid wsId).clients = setRemove sess.clients cid := by
  cases wsId with
  | none => rfl
  | some pid =>
      cases h : mapGet sess.participants pid with
      | none => simp [closeSession2, h]
      | some p => simp [closeSession2, h]

theorem closeSession2_director (sess : Session) (cid : Nat) (wsId : Option Nat) :
    (closeSession2 sess cid wsId).director = sess.director := by
  cases wsId with
  | none => rfl
  | some pid =>
      cases h : mapGet sess.participants pid with
      | none => simp [closeSession2, h]
      | some p => simp [closeSession2, h]

theorem sessionsWF_close (st : ServerState) (cid : Nat) (hwf : sessionsWF st) :
    sessionsWF (close st cid) := by
  cases hc : (mapGet st.conns cid).bind (fun c => c.sid) with
  | none =>
      rw [close_of_unjoined st cid hc]
      exact hwf
  | some sid =>
      cases hs : mapGet st.sessions sid with
      | none =>
          rw [close_of_no_session st cid sid hc hs]
          exact hwf
      | some sess =>
          rw [close_eq st cid sid sess hc hs]
          intro sid' sess' hlook
          unfold closeResult at hlook
          simp only at hlook
          by_cases hlen : (closeSessionResult
              (closeSession2 sess cid ((mapGet st.conns cid).getD Conn.fresh).id)
              cid).clients.length = 0
          · rw [if_pos hlen, mapGet_mapDelete] at hlook
            by_cases hsid : sid = sid'
            · rw [if_pos hsid] at hlook
              exact absurd hlook (by simp)
            · rw [if_neg hsid] at hlook
              exact hwf sid' sess' hlook
          · rw [if_neg hlen, mapGet_mapSet] at hlook
            by_cases hsid : sid = sid'
            · rw [if_pos hsid] at hlook
              cases hlook
              set sess2 := closeSession2 sess cid ((mapGet st.conns cid).getD Conn.fresh).id with hsess2
              have hcl2 : sess2.clients = setRemove sess.clients cid := by
                rw [hsess2, closeSession2_clients]
              have hne : (closeSessionResult sess2 cid).clients ≠ [] := by
                intro hnil
                rw [hnil] at hlen
                simp at hlen
              refine ⟨hne, ?_⟩
              obtain ⟨hcne, d0, hd0, hd0m⟩ := hwf sid sess hs
              unfold closeSessionResult
              by_cases hdc : sess2.director = some cid
              · rw [if_pos hdc]
                simp only
                cases hhd : (closeSessionResult sess2 cid).clients with
                | nil => exact absurd hhd hne
                | cons a l =>
                    have hscl : sess2.clients = a :: l := by
                      unfold closeSessionResult at hhd
                      rw [if_pos hdc] at hhd
                      exact hhd
                    refine ⟨a, ?_, ?_⟩
                    · rw [hscl]
                      rfl
                    · rw [hscl]
                      simp
              · rw [if_neg hdc]
                have hdir2 : sess2.director = sess.director := by
                  rw [hsess2, closeSession2_director]
                refine ⟨d0, ?_, ?_⟩
                · rw [hdir2, hd0]
                · rw [hcl2, mem_setRemove]
                  refine ⟨hd0m, ?_⟩
                  intro hdcid
                  rw [hdir2, hd0] at hdc
                  rw [hdcid] at hdc
                  exact hdc rfl
            · rw [if_neg hsid] at hlook
              exact hwf sid' sess' hlook

theorem sessionsWF_reachable (cfg : Config) (st : ServerState)
    (h : Reachable cfg st) : sessionsWF st := by
  induction h with
  | init =>
      intro sid sess hlook
      simp [initState, mapGet] at hlook
  | step st0 e st1 _ happ ih =>
      cases e with
      | upgrade c =>
          simp only [applyEvent] at happ
          cases hg : mapGet st0.conns c with
          | some conn => simp only [hg] at happ; exact absurd happ (by simp)
          | none =>
              simp only [hg] at happ
              simp only [Option.some.injEq] at happ
              rw [← happ]
              exact sessionsWF_of_eq st0 _ rfl ih
      | message c msg q now =>
          simp only [applyEvent] at happ
          cases hg : mapGet st0.conns c with
          | none => simp only [hg] at happ; exact absurd happ (by simp)
          | some conn =>
              simp only [hg] at happ
              by_cases hrs : conn.readyState = 1
              · rw [if_pos hrs] at happ
                simp only [Option.some.injEq] at happ
                rw [← happ]
                by_cases hj : msg.type = "join"
                · unfold handleMessage
                  rw [if_pos hj]
                  exact sessionsWF_join cfg st0 c msg q ih
                · have hf := handleMessage_nonjoin_frame cfg q now st0 c msg hj
                  exact sessionsWF_of_eq st0 _ hf.1 ih
              · rw [if_neg hrs] at happ
                exact absurd happ (by simp)
      | transportClose c =>
          simp only [applyEvent] at happ
          cases hg : mapGet st0.conns c with
          | none => simp only [hg] at happ; exact absurd happ (by simp)
          | some conn =>
              simp only [hg] at happ
              by_cases hrs : conn.readyState = 1
              · rw [if_pos hrs] at happ
                simp only [Option.some.injEq] at happ
                rw [← happ]
                apply sessionsWF_close
                exact sessionsWF_of_eq st0 _ rfl ih
              · rw [if_neg hrs] at happ
                exact absurd happ (by simp)

end Relay

namespace Relay

/-! ## Participant/connection correspondence invariant (single-join traces) -/

theorem closeSessionResult_clients (sess2 : Session) (cid : Nat) :
    (closeSessionResult sess2 cid).clients = sess2.clients := by
  unfold closeSessionResult
  split <;> rfl

theorem closeSessionResult_participants (sess2 : Session) (cid : Nat) :
    (closeSessionResult sess2 cid).participants = sess2.participants := by
  unfold closeSessionResult
  split <;> rfl

theorem closeSession2_participants (sess : Session) (cid : Nat) (wsId : Option Nat) :
    (closeSession2 sess cid wsId).participants =
      match wsId with
      | none => sess.participants
      | some pid =>
          match mapGet sess.participants pid with
          | none => sess.participants
          | some p => mapSet sess.participants pid ⟨p.id, p.name, false⟩ := by
  cases wsId with
  | none => rfl
  | some pid =>
      cases hp : mapGet sess.participants pid with
      | none => simp [closeSession2, hp]
      | some p => simp [closeSession2, hp]

theorem joinSessionResult_clients (sess0 : Session) (cid newId : Nat)
    (name role : String) :
    (joinSessionResult sess0 cid newId name role).clients = setAdd sess0.clients cid := by
  unfold joinSessionResult joinPreSession
  split <;> rfl

theorem joinSessionResult_participants (sess0 : Session) (cid newId : Nat)
    (name role : String) :
    (joinSessionResult sess0 cid newId name role).participants =
      mapSet sess0.participants newId ⟨newId, name, true⟩ := by
  unfold joinSessionResult joinPreSession
  split <;> rfl

/-- Inductive invariant tying sessions, participants and connections
together on traces where each connection joins at most once. -/
structure InvP (st : ServerState) : Prop where
  clientsWF : ∀ sid sess, mapGet st.sessions sid = some sess →
    ∀ c, c ∈ sess.clients →
      ∃ conn, mapGet st.conns c = some conn ∧ conn.sid = some sid ∧
        conn.readyState = 1 ∧
        ∃ pid, conn.id = some pid ∧
          ∃ p, mapGet sess.participants pid = some p ∧ p.connected = true
  partsWF : ∀ sid sess, mapGet st.sessions sid = some sess →
    ∀ pid p, mapGet sess.participants pid = some p →
      p.id = pid ∧ pid < st.nextUuid ∧
        (p.connected = true →
          ∃ c, c ∈ sess.clients ∧
            ∃ conn, mapGet st.conns c = some conn ∧ conn.id = some pid)
  unjoinedWF : ∀ c conn, mapGet st.conns c = some conn → conn.sid = none →
    conn.id = none ∧
      ∀ sid sess, mapGet st.sessions sid = some sess → c ∉ sess.clients
  idFresh : ∀ c conn, mapGet st.conns c = some conn →
    ∀ pid, conn.id = some pid → pid < st.nextUuid
  idInj : ∀ c c' conn conn' pid, mapGet st.conns c = some conn →
    mapGet st.conns c' = some conn' → conn.id = some pid → conn'.id = some pid →
      c = c'

theorem invP_of_eq (st st' : ServerState) (h1 : st'.sessions = st.sessions)
    (h2 : st'.conns = st.conns) (h3 : st'.nextUuid = st.nextUuid)
    (h : InvP st) : InvP st' := by
  constructor
  · intro sid sess hlook c hc
    rw [h1] at hlook
    rw [h2]
    exact h.clientsWF sid sess hlook c hc
  · intro sid sess hlook pid p hp
    rw [h1] at hlook
    rw [h2, h3]
    exact h.partsWF sid sess hlook pid p hp
  · intro c conn hconn hsid
    rw [h2] at hconn
    rw [h1]
    exact h.unjoinedWF c conn hconn hsid
  · intro c conn hconn pid hpid
    rw [h2] at hconn
    rw [h3]
    exact h.idFresh c conn hconn pid hpid
  · intro c c' conn conn' pid hc hc' hid hid'
    rw [h2] at hc hc'
    exact h.idInj c c' conn conn' pid hc hc' hid hid'

theorem invP_init : InvP initState := by
  constructor
  · intro sid sess hlook
    simp [initState, mapGet] at hlook
  · intro sid sess hlook
    simp [initState, mapGet] at hlook
  · intro c conn hconn
    simp [initState, mapGet] at hconn
  · intro c conn hconn
    simp [initState, mapGet] at hconn
  · intro c c' conn conn' pid hc
    simp [initState, mapGet] at hc

theorem invP_upgrade (st : ServerState) (c : Nat)
    (hg : mapGet st.conns c = none) (h : InvP st) :
    InvP { st with conns := mapSet st.conns c Conn.fresh } := by
  have hnotmem : ∀ sid sess, mapGet st.sessions sid = some sess → c ∉ sess.clients := by
    intro sid sess hlook hmem
    obtain ⟨conn, hconn, _⟩ := h.clientsWF sid sess hlook c hmem
    rw [hg] at hconn
    exact absurd hconn (by simp)
  constructor
  · intro sid sess hlook c' hc'
    have hne : ¬ c = c' := by
      intro he
      exact hnotmem sid sess hlook (he ▸ hc')
    obtain ⟨conn, hconn, hrest⟩ := h.clientsWF sid sess hlook c' hc'
    refine ⟨conn, ?_, hrest⟩
    simp only [mapGet_mapSet, if_neg hne]
    exact hconn
  · intro sid sess hlook pid p hp
    obtain ⟨hid, hlt, hcon⟩ := h.partsWF sid sess hlook pid p hp
    refine ⟨hid, hlt, ?_⟩
    intro hc
    obtain ⟨cw, hcw, conn, hconn, hcid⟩ := hcon hc
    have hne : ¬ c = cw := by
      intro he
      exact hnotmem sid sess hlook (he ▸ hcw)
    refine ⟨cw, hcw, conn, ?_, hcid⟩
    simp only [mapGet_mapSet, if_neg hne]
    exact hconn
  · intro c' conn' hconn' hsid'
    simp only [mapGet_mapSet] at hconn'
    by_cases he : c = c'
    · rw [if_pos he] at hconn'
      cases hconn'
      exact ⟨rfl, fun sid sess hlook => he ▸ hnotmem sid sess hlook⟩
    · rw [if_neg he] at hconn'
      obtain ⟨hid, hmem⟩ := h.unjoinedWF c' conn' hconn' hsid'
      exact ⟨hid, hmem⟩
  · intro c' conn' hconn' pid hpid
    simp only [mapGet_mapSet] at hconn'
    by_cases he : c = c'
    · rw [if_pos he] at hconn'
      cases hconn'
      exact absurd hpid (by simp [Conn.fresh])
    · rw [if_neg he] at hconn'
      exact h.idFresh c' conn' hconn' pid hpid
  · intro cX cY connX connY pid hX hY hiX hiY
    simp only [mapGet_mapSet] at hX hY
    by_cases heX : c = cX
    · rw [if_pos heX] at hX
      cases hX
      exact absurd hiX (by simp [Conn.fresh])
    · rw [if_neg heX] at hX
      by_cases heY : c = cY
      · rw [if_pos heY] at hY
        cases hY
        exact absurd hiY (by simp [Conn.fresh])
      · rw [if_neg heY] at hY
        exact h.idInj cX cY connX connY pid hX hY hiX hiY

end Relay

namespace Relay

theorem joinConn_id (c0 : Conn) (newId : Nat) (sid name role : String)
    (cu : Option String) : (joinConn c0 newId sid name role cu).id = some newId := rfl

theorem joinConn_sid (c0 : Conn) (newId : Nat) (sid name role : String)
    (cu : Option String) : (joinConn c0 newId sid name role cu).sid = some sid := rfl

theorem joinConn_readyState (c0 : Conn) (newId : Nat) (sid name role : String)
    (cu : Option String) :
    (joinConn c0 newId sid name role cu).readyState = c0.readyState := rfl

theorem invP_joinResult_aux (st : ServerState) (cid : Nat) (conn : Conn)
    (sidv nmv rlv : String) (cu : Option String)
    (hg : mapGet st.conns cid = some conn) (hrs : conn.readyState = 1)
    (hnr : conn.sid = none) (h : InvP st) (stR : ServerState)
    (hS : stR.sessions = mapSet st.sessions sidv (joinSessionResult (sessionAt st sidv) cid st.nextUuid nmv rlv))
    (hC : stR.conns = mapSet st.conns cid (joinConn conn st.nextUuid sidv nmv rlv cu))
    (hN : stR.nextUuid = st.nextUuid + 1) :
    InvP stR := by
  obtain ⟨hidnone, hnotin⟩ := h.unjoinedWF cid conn hg hnr
  have hs0clients : ∀ c, c ∈ (sessionAt st sidv).clients →
      ∃ connX, mapGet st.conns c = some connX ∧ connX.sid = some sidv ∧
        connX.readyState = 1 ∧ ∃ pid, connX.id = some pid ∧
          ∃ p, mapGet (sessionAt st sidv).participants pid = some p ∧
            p.connected = true := by
    intro c hc
    unfold sessionAt at hc ⊢
    revert hc
    cases hreg : mapGet st.sessions sidv with
    | none =>
        intro hc
        simp at hc
    | some s0 =>
        intro hc
        simp only [Option.getD_some] at hc ⊢
        exact h.clientsWF sidv s0 hreg c hc
  have hs0parts : ∀ pid p, mapGet (sessionAt st sidv).participants pid = some p →
      p.id = pid ∧ pid < st.nextUuid ∧ (p.connected = true →
        ∃ c, c ∈ (sessionAt st sidv).clients ∧
          ∃ connX, mapGet st.conns c = some connX ∧ connX.id = some pid) := by
    intro pid p hp
    unfold sessionAt at hp ⊢
    revert hp
    cases hreg : mapGet st.sessions sidv with
    | none =>
        intro hp
        simp [mapGet] at hp
    | some s0 =>
        intro hp
        simp only [Option.getD_some] at hp ⊢
        exact h.partsWF sidv s0 hreg pid p hp
  have hcidnot : cid ∉ (sessionAt st sidv).clients := by
    unfold sessionAt
    cases hreg : mapGet st.sessions sidv with
    | none => simp
    | some s0 =>
        simp only [Option.getD_some]
        exact hnotin sidv s0 hreg
  constructor
  · intro sidX sessX hlookX cX hcX
    rw [hS, mapGet_mapSet] at hlookX
    by_cases hqx : sidv = sidX
    · rw [if_pos hqx] at hlookX
      cases hlookX
      rw [joinSessionResult_clients, mem_setAdd] at hcX
      cases hcX with
      | inl hin =>
          have hne : ¬ cid = cX := by
            intro he
            exact hcidnot (he ▸ hin)
          obtain ⟨connX, hconnX, hsidX, hrsX, pidX, hpidX, pX, hpX, hconX⟩ :=
            hs0clients cX hin
          have hltX : pidX < st.nextUuid := by
            have := (hs0parts pidX pX hpX).2.1
            exact this
          refine ⟨connX, ?_, ?_, hrsX, pidX, hpidX, pX, ?_, hconX⟩
          · rw [hC, mapGet_mapSet, if_neg hne]
            exact hconnX
          · rw [← hqx]
            exact hsidX
          · rw [joinSessionResult_participants, mapGet_mapSet]
            rw [if_neg (by intro he; rw [← he] at hltX; exact absurd hltX (lt_irrefl _))]
            exact hpX
      | inr heq =>
          subst heq
          refine ⟨joinConn conn st.nextUuid sidv nmv rlv cu, ?_, ?_, hrs,
            st.nextUuid, rfl, ⟨st.nextUuid, nmv, true⟩, ?_, rfl⟩
          · rw [hC, mapGet_mapSet, if_pos rfl]
          · rw [← hqx]
            rfl
          · rw [joinSessionResult_participants, mapGet_mapSet, if_pos rfl]
    · rw [if_neg hqx] at hlookX
      obtain ⟨connX, hconnX, hsidX, hrsX, pidX, hpidX, pX, hpX, hconX⟩ :=
        h.clientsWF sidX sessX hlookX cX hcX
      have hne : ¬ cid = cX := by
        intro he
        rw [← he, hg] at hconnX
        cases hconnX
        rw [hnr] at hsidX
        simp at hsidX
      refine ⟨connX, ?_, hsidX, hrsX, pidX, hpidX, pX, hpX, hconX⟩
      rw [hC, mapGet_mapSet, if_neg hne]
      exact hconnX
  · intro sidX sessX hlookX pidX pX hpX
    rw [hS, mapGet_mapSet] at hlookX
    rw [hN]
    by_cases hqx : sidv = sidX
    · rw [if_pos hqx] at hlookX
      cases hlookX
      rw [joinSessionResult_participants, mapGet_mapSet] at hpX
      by_cases hpid : st.nextUuid = pidX
      · rw [if_pos hpid] at hpX
        cases hpX
        refine ⟨hpid, ?_, ?_⟩
        · rw [← hpid]
          exact Nat.lt_succ_self _
        · intro _
          refine ⟨cid, ?_, joinConn conn st.nextUuid sidv nmv rlv cu, ?_, ?_⟩
          · rw [joinSessionResult_clients, mem_setAdd]
            exact Or.inr rfl
          · rw [hC, mapGet_mapSet, if_pos rfl]
          · rw [← hpid]
            rfl
      · rw [if_neg hpid] at hpX
        obtain ⟨hidX, hltX, hcoX⟩ := hs0parts pidX pX hpX
        refine ⟨hidX, Nat.lt_succ_of_lt hltX, ?_⟩
        intro hcon
        obtain ⟨cW, hcW, connW, hconnW, hidW⟩ := hcoX hcon
        have hne : ¬ cid = cW := by
          intro he
          rw [← he, hg] at hconnW
          cases hconnW
          rw [hidnone] at hidW
          simp at hidW
        refine ⟨cW, ?_, connW, ?_, hidW⟩
        · rw [joinSessionResult_clients, mem_setAdd]
          exact Or.inl hcW
        · rw [hC, mapGet_mapSet, if_neg hne]
          exact hconnW
    · rw [if_neg hqx] at hlookX
      obtain ⟨hidX, hltX, hcoX⟩ := h.partsWF sidX sessX hlookX pidX pX hpX
      refine ⟨hidX, Nat.lt_succ_of_lt hltX, ?_⟩
      intro hcon
      obtain ⟨cW, hcW, connW, hconnW, hidW⟩ := hcoX hcon
      have hne : ¬ cid = cW := by
        intro he
        rw [← he, hg] at hconnW
        cases hconnW
        rw [hidnone] at hidW
        simp at hidW
      refine ⟨cW, hcW, connW, ?_, hidW⟩
      rw [hC, mapGet_mapSet, if_neg hne]
      exact hconnW
  · intro cX connX hconnX hsidX
    rw [hC, mapGet_mapSet] at hconnX
    by_cases he : cid = cX
    · rw [if_pos he] at hconnX
      cases hconnX
      simp [joinConn] at hsidX
    · rw [if_neg he] at hconnX
      obtain ⟨hidX, hnotinX⟩ := h.unjoinedWF cX connX hconnX hsidX
      refine ⟨hidX, ?_⟩
      intro sidY sessY hlookY
      rw [hS, mapGet_mapSet] at hlookY
      by_cases hqy : sidv = sidY
      · rw [if_pos hqy] at hlookY
        cases hlookY
        rw [joinSessionResult_clients]
        intro hmem
        rw [mem_setAdd] at hmem
        cases hmem with
        | inl hin =>
            revert hin
            unfold sessionAt
            cases hreg : mapGet st.sessions sidv with
            | none => simp
            | some s0 =>
                simp only [Option.getD_some]
                exact hnotinX sidv s0 hreg
        | inr heq => exact he heq.symm
      · rw [if_neg hqy] at hlookY
        exact hnotinX sidY sessY hlookY
  · intro cX connX hconnX pidX hpidX
    rw [hC, mapGet_mapSet] at hconnX
    rw [hN]
    by_cases he : cid = cX
    · rw [if_pos he] at hconnX
      cases hconnX
      rw [joinConn_id] at hpidX
      cases hpidX
      exact Nat.lt_succ_self _
    · rw [if_neg he] at hconnX
      exact Nat.lt_succ_of_lt (h.idFresh cX connX hconnX pidX hpidX)
  · intro cX cY connX connY pidX hX hY hiX hiY
    rw [hC, mapGet_mapSet] at hX hY
    by_cases heX : cid = cX
    · rw [if_pos heX] at hX
      by_cases heY : cid = cY
      · rw [← heX, ← heY]
      · rw [if_neg heY] at hY
        cases hX
        rw [joinConn_id] at hiX
        cases hiX
        have h2 := h.idFresh cY connY hY st.nextUuid hiY
        exact absurd h2 (lt_irrefl _)
    · rw [if_neg heX] at hX
      by_cases heY : cid = cY
      · rw [if_pos heY] at hY
        cases hY
        rw [joinConn_id] at hiY
        cases hiY
        have h2 := h.idFresh cX connX hX st.nextUuid hiX
        exact absurd h2 (lt_irrefl _)
      · rw [if_neg heY] at hY
        exact h.idInj cX cY connX connY pidX hX hY hiX hiY

theorem invP_join (cfg : Config) (st : ServerState) (cid : Nat) (msg : InMsg)
    (q : Query) (conn : Conn) (hg : mapGet st.conns cid = some conn)
    (hrs : conn.readyState = 1) (hnr : conn.sid = none) (h : InvP st) :
    InvP (join cfg st cid msg q) := by
  by_cases hp : cfg.relayPassword ≠ "" ∧ orDefault msg.password "" ≠ cfg.relayPassword
  · unfold join
    rw [if_pos hp]
    exact invP_of_eq st _ rfl rfl rfl h
  · rw [join_eq cfg st cid msg q hp]
    have hconn0 : (mapGet st.conns cid).getD Conn.fresh = conn := by
      rw [hg]
      rfl
    refine invP_joinResult_aux st cid conn (resolvedSid msg q) (resolvedName msg)
      (resolvedRole msg) (orNullStr msg.client_uuid) hg hrs hnr h
      (joinResult st cid msg q) rfl ?_ rfl
    show (joinResult st cid msg q).conns = _
    unfold joinResult
    simp only []
    rw [hconn0]

end Relay

namespace Relay

/-- Marking a socket closed preserves the invariant when the socket is in
no session's connection set. -/
theorem invP_markClosed (st : ServerState) (cid : Nat) (conn connC : Conn)
    (hg : mapGet st.conns cid = some conn) (hCid : connC.id = conn.id)
    (hCsid : connC.sid = conn.sid) (h : InvP st)
    (hnotin : ∀ sid sess, mapGet st.sessions sid = some sess → cid ∉ sess.clients) :
    InvP { st with conns := mapSet st.conns cid connC } := by
  have hOther : ∀ cX, ¬ cid = cX →
      mapGet (mapSet st.conns cid connC) cX = mapGet st.conns cX := by
    intro cX hne
    rw [mapGet_mapSet, if_neg hne]
  constructor
  · intro sidX sessX hlookX cX hcX
    have hne : ¬ cid = cX := by
      intro he
      exact hnotin sidX sessX hlookX (he ▸ hcX)
    obtain ⟨connX, hconnX, hrest⟩ := h.clientsWF sidX sessX hlookX cX hcX
    refine ⟨connX, ?_, hrest⟩
    show mapGet (mapSet st.conns cid connC) cX = some connX
    rw [hOther cX hne]
    exact hconnX
  · intro sidX sessX hlookX pidX pX hpX
    obtain ⟨hidX, hltX, hcoX⟩ := h.partsWF sidX sessX hlookX pidX pX hpX
    refine ⟨hidX, hltX, ?_⟩
    intro hcon
    obtain ⟨cW, hcW, connW, hconnW, hidW⟩ := hcoX hcon
    have hne : ¬ cid = cW := by
      intro he
      exact hnotin sidX sessX hlookX (he ▸ hcW)
    refine ⟨cW, hcW, connW, ?_, hidW⟩
    show mapGet (mapSet st.conns cid connC) cW = some connW
    rw [hOther cW hne]
    exact hconnW
  · intro cX connX hconnX hsidX
    show connX.id = none ∧ _
    rw [mapGet_mapSet] at hconnX
    by_cases he : cid = cX
    · rw [if_pos he] at hconnX
      cases hconnX
      rw [hCsid] at hsidX
      obtain ⟨hidn, _⟩ := h.unjoinedWF cid conn hg hsidX
      rw [hCid]
      exact ⟨hidn, fun sidY sessY hlookY => (he ▸ hnotin sidY sessY hlookY)⟩
    · rw [if_neg he] at hconnX
      exact h.unjoinedWF cX connX hconnX hsidX
  · intro cX connX hconnX pidX hpidX
    rw [mapGet_mapSet] at hconnX
    by_cases he : cid = cX
    · rw [if_pos he] at hconnX
      cases hconnX
      rw [hCid] at hpidX
      exact h.idFresh cid conn hg pidX hpidX
    · rw [if_neg he] at hconnX
      exact h.idFresh cX connX hconnX pidX hpidX
  · intro cX cY connX connY pidX hX hY hiX hiY
    rw [mapGet_mapSet] at hX hY
    by_cases heX : cid = cX
    · rw [if_pos heX] at hX
      cases hX
      rw [hCid] at hiX
      by_cases heY : cid = cY
      · rw [← heX, ← heY]
      · rw [if_neg heY] at hY
        exact absurd (h.idInj cid cY conn connY pidX hg hY hiX hiY) heY
    · rw [if_neg heX] at hX
      by_cases heY : cid = cY
      · rw [if_pos heY] at hY
        cases hY
        rw [hCid] at hiY
        exact absurd (h.idInj cid cX conn connX pidX hg hX hiY hiX) heX
      · rw [if_neg heY] at hY
        exact h.idInj cX cY connX connY pidX hX hY hiX hiY

end Relay

namespace Relay

/-- The close handler's written-back state preserves the invariant. -/
theorem invP_closeResult_aux (st : ServerState) (cid : Nat) (conn connC : Conn)
    (sid : String) (sess : Session)
    (hg : mapGet st.conns cid = some conn) (hsidc : conn.sid = some sid)
    (hreg : mapGet st.sessions sid = some sess) (h : InvP st)
    (hCid : connC.id = conn.id) (hCsid : connC.sid = conn.sid)
    (stR : ServerState)
    (hRS : stR.sessions =
      (if (closeSessionResult (closeSession2 sess cid conn.id) cid).clients.length = 0
       then mapDelete st.sessions sid
       else mapSet st.sessions sid (closeSessionResult (closeSession2 sess cid conn.id) cid)))
    (hRC : stR.conns = mapSet st.conns cid connC)
    (hRN : stR.nextUuid = st.nextUuid) :
    InvP stR := by
  have hcl3 : (closeSessionResult (closeSession2 sess cid conn.id) cid).clients =
      setRemove sess.clients cid := by
    rw [closeSessionResult_clients, closeSession2_clients]
  have hpt3 : ∀ pidX, mapGet (closeSessionResult (closeSession2 sess cid conn.id) cid).participants pidX =
      (match conn.id with
       | none => mapGet sess.participants pidX
       | some pidC =>
           match mapGet sess.participants pidC with
           | none => mapGet sess.participants pidX
           | some pC =>
               if pidC = pidX then some ⟨pC.id, pC.name, false⟩
               else mapGet sess.participants pidX) := by
    intro pidX
    rw [closeSessionResult_participants, closeSession2_participants]
    cases conn.id with
    | none => rfl
    | some pidC =>
        show mapGet (match mapGet sess.participants pidC with
            | none => sess.participants
            | some p => mapSet sess.participants pidC ⟨p.id, p.name, false⟩) pidX =
          (match mapGet sess.participants pidC with
            | none => mapGet sess.participants pidX
            | some pC => if pidC = pidX then some ⟨pC.id, pC.name, false⟩
                else mapGet sess.participants pidX)
        cases mapGet sess.participants pidC with
        | none => rfl
        | some pC => exact mapGet_mapSet sess.participants pidC pidX ⟨pC.id, pC.name, false⟩
  have hlookchar : ∀ sidX sessX, mapGet stR.sessions sidX = some sessX →
      (sid = sidX ∧ sessX = closeSessionResult (closeSession2 sess cid conn.id) cid) ∨
      (¬ sid = sidX ∧ mapGet st.sessions sidX = some sessX) := by
    intro sidX sessX hlookX
    rw [hRS] at hlookX
    by_cases hlen : (closeSessionResult (closeSession2 sess cid conn.id) cid).clients.length = 0
    · rw [if_pos hlen, mapGet_mapDelete] at hlookX
      by_cases hq : sid = sidX
      · rw [if_pos hq] at hlookX
        exact absurd hlookX (by simp)
      · rw [if_neg hq] at hlookX
        exact Or.inr ⟨hq, hlookX⟩
    · rw [if_neg hlen, mapGet_mapSet] at hlookX
      by_cases hq : sid = sidX
      · rw [if_pos hq] at hlookX
        cases hlookX
        exact Or.inl ⟨hq, rfl⟩
      · rw [if_neg hq] at hlookX
        exact Or.inr ⟨hq, hlookX⟩
  have hOther : ∀ cX, ¬ cid = cX →
      mapGet stR.conns cX = mapGet st.conns cX := by
    intro cX hne
    rw [hRC, mapGet_mapSet, if_neg hne]
  have hcWne : ∀ sidX sessX, ¬ sid = sidX → mapGet st.sessions sidX = some sessX →
      ∀ cX, cX ∈ sessX.clients → ¬ cid = cX := by
    intro sidX sessX hq hlookX cX hmemX he
    obtain ⟨connX, hconnX, hsidX, _⟩ := h.clientsWF sidX sessX hlookX cX hmemX
    rw [← he, hg] at hconnX
    cases hconnX
    rw [hsidc] at hsidX
    cases hsidX
    exact hq rfl
  have hp3cases : ∀ pidX pX,
      mapGet (closeSessionResult (closeSession2 sess cid conn.id) cid).participants pidX = some pX →
      (mapGet sess.participants pidX = some pX) ∨
      (∃ pC, conn.id = some pidX ∧ mapGet sess.participants pidX = some pC ∧
        pX = ⟨pC.id, pC.name, false⟩) := by
    intro pidX pX hpX
    rw [hpt3] at hpX
    revert hpX
    cases hid : conn.id with
    | none =>
        intro hpX
        exact Or.inl hpX
    | some pidC =>
        intro hpX
        have hpX2 : (match mapGet sess.participants pidC with
            | none => mapGet sess.participants pidX
            | some pC => if pidC = pidX then some (⟨pC.id, pC.name, false⟩ : Participant)
                else mapGet sess.participants pidX) = some pX := hpX
        revert hpX2
        cases hpc : mapGet sess.participants pidC with
        | none =>
            intro hpX2
            exact Or.inl hpX2
        | some pC =>
            intro hpX2
            have hpX' : (if pidC = pidX then some (⟨pC.id, pC.name, false⟩ : Participant)
                else mapGet sess.participants pidX) = some pX := hpX2
            by_cases hpe : pidC = pidX
            · rw [if_pos hpe] at hpX'
              cases hpX'
              refine Or.inr ⟨pC, ?_, ?_, rfl⟩
              · rw [← hpe]
              · rw [← hpe]
                exact hpc
            · rw [if_neg hpe] at hpX'
              exact Or.inl hpX'
  have hp3same : ∀ pidX pX, mapGet sess.participants pidX = some pX →
      (∀ pidC, conn.id = some pidC → ¬ pidC = pidX) →
      mapGet (closeSessionResult (closeSession2 sess cid conn.id) cid).participants pidX = some pX := by
    intro pidX pX hpX hne
    rw [hpt3]
    cases hid : conn.id with
    | none => exact hpX
    | some pidC =>
        show (match mapGet sess.participants pidC with
            | none => mapGet sess.participants pidX
            | some pC => if pidC = pidX then some (⟨pC.id, pC.name, false⟩ : Participant)
                else mapGet sess.participants pidX) = some pX
        cases hpc : mapGet sess.participants pidC with
        | none => exact hpX
        | some pC =>
            show (if pidC = pidX then some (⟨pC.id, pC.name, false⟩ : Participant)
                else mapGet sess.participants pidX) = some pX
            rw [if_neg (hne pidC hid)]
            exact hpX
  constructor
  · intro sidX sessX hlookX cX hcX
    rcases hlookchar sidX sessX hlookX with ⟨hq, hsX⟩ | ⟨hq, hold⟩
    · cases hsX
      rw [hcl3, mem_setRemove] at hcX
      obtain ⟨hmem, hnecid⟩ := hcX
      have hne : ¬ cid = cX := fun he => hnecid he.symm
      obtain ⟨connX, hconnX, hsidX, hrsX, pidX, hpidX, pX, hpX, hconX⟩ :=
        h.clientsWF sid sess hreg cX hmem
      refine ⟨connX, ?_, ?_, hrsX, pidX, hpidX, ?_⟩
      · rw [hOther cX hne]
        exact hconnX
      · rw [← hq]
        exact hsidX
      · refine ⟨pX, ?_, hconX⟩
        apply hp3same pidX pX hpX
        intro pidC hpidC hpe
        rw [← hpe] at hpidX
        exact hne (h.idInj cid cX conn connX pidC hg hconnX hpidC hpidX)
    · obtain ⟨connX, hconnX, hsidX, hrsX, prest⟩ := h.clientsWF sidX sessX hold cX hcX
      have hne : ¬ cid = cX := hcWne sidX sessX hq hold cX hcX
      refine ⟨connX, ?_, hsidX, hrsX, prest⟩
      rw [hOther cX hne]
      exact hconnX
  · intro sidX sessX hlookX pidX pX hpX
    rw [hRN]
    rcases hlookchar sidX sessX hlookX with ⟨hq, hsX⟩ | ⟨hq, hold⟩
    · cases hsX
      rcases hp3cases pidX pX hpX with hsame | ⟨pC, hidC, hpC, hflip⟩
      · obtain ⟨hidX, hltX, hcoX⟩ := h.partsWF sid sess hreg pidX pX hsame
        refine ⟨hidX, hltX, ?_⟩
        intro hcon
        obtain ⟨cW, hcW, connW, hconnW, hidW⟩ := hcoX hcon
        have hne : ¬ cid = cW := by
          intro he
          rw [← he, hg] at hconnW
          cases hconnW
          have hflipped : mapGet (closeSessionResult (closeSession2 sess cid conn.id) cid).participants pidX = some ⟨pX.id, pX.name, false⟩ := by
            rw [hpt3, hidW]
            show (match mapGet sess.participants pidX with
                | none => mapGet sess.participants pidX
                | some pC => if pidX = pidX then some (⟨pC.id, pC.name, false⟩ : Participant)
                    else mapGet sess.participants pidX) = some ⟨pX.id, pX.name, false⟩
            rw [hsame]
            show (if pidX = pidX then some (⟨pX.id, pX.name, false⟩ : Participant)
                else some pX) = some ⟨pX.id, pX.name, false⟩
            rw [if_pos rfl]
          rw [hflipped] at hpX
          have h1 : (⟨pX.id, pX.name, false⟩ : Participant) = pX := by
            injection hpX
          have h3 : false = pX.connected := congrArg Participant.connected h1
          rw [hcon] at h3
          exact Bool.noConfusion h3
        refine ⟨cW, ?_, connW, ?_, hidW⟩
        · rw [hcl3, mem_setRemove]
          exact ⟨hcW, fun he => hne he.symm⟩
        · rw [hOther cW hne]
          exact hconnW
      · obtain ⟨hidX, hltX, _⟩ := h.partsWF sid sess hreg pidX pC hpC
        rw [hflip]
        refine ⟨hidX, hltX, ?_⟩
        intro hcon
        simp at hcon
    · obtain ⟨hidX, hltX, hcoX⟩ := h.partsWF sidX sessX hold pidX pX hpX
      refine ⟨hidX, hltX, ?_⟩
      intro hcon
      obtain ⟨cW, hcW, connW, hconnW, hidW⟩ := hcoX hcon
      have hne : ¬ cid = cW := hcWne sidX sessX hq hold cW hcW
      refine ⟨cW, hcW, connW, ?_, hidW⟩
      rw [hOther cW hne]
      exact hconnW
  · intro cX connX hconnX hsidX
    rw [hRC, mapGet_mapSet] at hconnX
    by_cases he : cid = cX
    · rw [if_pos he] at hconnX
      cases hconnX
      rw [hCsid, hsidc] at hsidX
      exact absurd hsidX (by simp)
    · rw [if_neg he] at hconnX
      obtain ⟨hidn, hnotinX⟩ := h.unjoinedWF cX connX hconnX hsidX
      refine ⟨hidn, ?_⟩
      intro sidY sessY hlookY
      rcases hlookchar sidY sessY hlookY with ⟨hq, hsY⟩ | ⟨hq, hold⟩
      · cases hsY
        rw [hcl3]
        intro hmem
        rw [mem_setRemove] at hmem
        exact hnotinX sid sess hreg hmem.1
      · exact hnotinX sidY sessY hold
  · intro cX connX hconnX pidX hpidX
    rw [hRC, mapGet_mapSet] at hconnX
    rw [hRN]
    by_cases he : cid = cX
    · rw [if_pos he] at hconnX
      cases hconnX
      rw [hCid] at hpidX
      exact h.idFresh cid conn hg pidX hpidX
    · rw [if_neg he] at hconnX
      exact h.idFresh cX connX hconnX pidX hpidX
  · intro cX cY connX connY pidX hX hY hiX hiY
    rw [hRC, mapGet_mapSet] at hX hY
    by_cases heX : cid = cX
    · rw [if_pos heX] at hX
      cases hX
      rw [hCid] at hiX
      by_cases heY : cid = cY
      · rw [← heX, ← heY]
      · rw [if_neg heY] at hY
        exact absurd (h.idInj cid cY conn connY pidX hg hY hiX hiY) heY
    · rw [if_neg heX] at hX
      by_cases heY : cid = cY
      · rw [if_pos heY] at hY
        cases hY
        rw [hCid] at hiY
        exact absurd (h.idInj cid cX conn connX pidX hg hX hiY hiX) heX
      · rw [if_neg heY] at hY
        exact h.idInj cX cY connX connY pidX hX hY hiX hiY

end Relay

namespace Relay

theorem invP_transportClose (st : ServerState) (cid : Nat) (conn : Conn)
    (hg : mapGet st.conns cid = some conn) (h : InvP st) :
    InvP (close { st with conns := mapSet st.conns cid { conn with readyState := 3 } } cid) := by
  set connC : Conn := { conn with readyState := 3 } with hconnC
  set stM : ServerState := { st with conns := mapSet st.conns cid connC } with hstM
  have hgM : mapGet stM.conns cid = some connC := by
    show mapGet (mapSet st.conns cid connC) cid = some connC
    rw [mapGet_mapSet, if_pos rfl]
  have hbind : (mapGet stM.conns cid).bind (fun c => c.sid) = conn.sid := by
    rw [hgM]
    rfl
  cases hsidc : conn.sid with
  | none =>
      rw [close_of_unjoined stM cid (by rw [hbind, hsidc])]
      exact invP_markClosed st cid conn connC hg rfl rfl h
        (h.unjoinedWF cid conn hg hsidc).2
  | some sid =>
      have hbs : (mapGet stM.conns cid).bind (fun c => c.sid) = some sid := by
        rw [hbind, hsidc]
      cases hreg : mapGet st.sessions sid with
      | none =>
          have hregM : mapGet stM.sessions sid = none := hreg
          rw [close_of_no_session stM cid sid hbs hregM]
          have hnotin : ∀ sidY sessY, mapGet st.sessions sidY = some sessY →
              cid ∉ sessY.clients := by
            intro sidY sessY hlookY hmem
            obtain ⟨connY, hconnY, hsidY, _⟩ := h.clientsWF sidY sessY hlookY cid hmem
            rw [hg] at hconnY
            cases hconnY
            rw [hsidc] at hsidY
            cases hsidY
            rw [hreg] at hlookY
            exact absurd hlookY (by simp)
          exact invP_markClosed st cid conn connC hg rfl rfl h hnotin
      | some sess =>
          have hregM : mapGet stM.sessions sid = some sess := hreg
          rw [close_eq stM cid sid sess hbs hregM]
          refine invP_closeResult_aux st cid conn connC sid sess hg hsidc hreg h
            rfl rfl (closeResult stM cid sid sess) ?_ rfl rfl
          show (closeResult stM cid sid sess).sessions = _
          unfold closeResult
          rw [hgM]
          rfl

theorem reachableNR_reachable (cfg : Config) (st : ServerState)
    (h : ReachableNR cfg st) : Reachable cfg st := by
  induction h with
  | init => exact Reachable.init
  | step st0 e st1 _ _ happ ih => exact Reachable.step st0 e st1 ih happ

theorem invP_reachableNR (cfg : Config) (st : ServerState)
    (h : ReachableNR cfg st) : InvP st := by
  induction h with
  | init => exact invP_init
  | step st0 e st1 _ hallow happ ih =>
      cases e with
      | upgrade c =>
          simp only [applyEvent] at happ
          cases hg : mapGet st0.conns c with
          | some conn =>
              simp only [hg] at happ
              exact absurd happ (by simp)
          | none =>
              simp only [hg, Option.some.injEq] at happ
              rw [← happ]
              exact invP_upgrade st0 c hg ih
      | message c msg q now =>
          simp only [applyEvent] at happ
          cases hg : mapGet st0.conns c with
          | none =>
              simp only [hg] at happ
              exact absurd happ (by simp)
          | some conn =>
              simp only [hg] at happ
              by_cases hrs : conn.readyState = 1
              · rw [if_pos hrs] at happ
                simp only [Option.some.injEq] at happ
                rw [← happ]
                by_cases hj : msg.type = "join"
                · simp only [eventAllowedNR] at hallow
                  rw [if_pos hj] at hallow
                  have hnr : (mapGet st0.conns c).bind (fun x => x.sid) = none :=
                    of_decide_eq_true hallow
                  rw [hg] at hnr
                  have hnr2 : conn.sid = none := hnr
                  unfold handleMessage
                  rw [if_pos hj]
                  exact invP_join cfg st0 c msg q conn hg hrs hnr2 ih
                · have hf := handleMessage_nonjoin_frame cfg q now st0 c msg hj
                  exact invP_of_eq st0 _ hf.1 hf.2.1 hf.2.2.1 ih
              · rw [if_neg hrs] at happ
                exact absurd happ (by simp)
      | transportClose c =>
          simp only [applyEvent] at happ
          cases hg : mapGet st0.conns c with
          | none =>
              simp only [hg] at happ
              exact absurd happ (by simp)
          | some conn =>
              simp only [hg] at happ
              by_cases hrs : conn.readyState = 1
              · rw [if_pos hrs] at happ
                simp only [Option.some.injEq] at happ
                rw [← happ]
                exact invP_transportClose st0 c conn hg ih
              · rw [if_neg hrs] at happ
                exact absurd happ (by simp)

end Relay

namespace Relay

theorem mapGet_mapSet_isSome {α β : Type} [DecidableEq α] (l : List (α × β))
    (k pid : α) (v : β) (h : ∃ b, mapGet l pid = some b) :
    ∃ b, mapGet (mapSet l k v) pid = some b := by
  rw [mapGet_mapSet]
  by_cases hk : k = pid
  · rw [if_pos hk]
    exact ⟨v, rfl⟩
  · rw [if_neg hk]
    exact h

theorem closeSession2_participants_mono (sess : Session) (cid : Nat)
    (wsId : Option Nat) (pid : Nat) (p : Participant)
    (hp : mapGet sess.participants pid = some p) :
    ∃ p', mapGet (closeSession2 sess cid wsId).participants pid = some p' := by
  rw [closeSession2_participants]
  cases wsId with
  | none => exact ⟨p, hp⟩
  | some pidC =>
      show ∃ p', mapGet (match mapGet sess.participants pidC with
          | none => sess.participants
          | some p0 => mapSet sess.participants pidC ⟨p0.id, p0.name, false⟩) pid = some p'
      cases mapGet sess.participants pidC with
      | none => exact ⟨p, hp⟩
      | some p0 => exact mapGet_mapSet_isSome sess.participants pidC pid _ ⟨p, hp⟩

/-- Across any single event, a participant record of a session that is
still registered afterwards is never removed (its `connected` flag may
flip). -/
theorem participants_monotone (cfg : Config) (st st' : ServerState) (e : Event)
    (happ : applyEvent cfg st e = some st') (sid : String) (sess sess' : Session)
    (hs : mapGet st.sessions sid = some sess)
    (hs' : mapGet st'.sessions sid = some sess')
    (pid : Nat) (p : Participant) (hp : mapGet sess.participants pid = some p) :
    ∃ p', mapGet sess'.participants pid = some p' := by
  cases e with
  | upgrade c =>
      simp only [applyEvent] at happ
      cases hg : mapGet st.conns c with
      | some conn =>
          simp only [hg] at happ
          exact absurd happ (by simp)
      | none =>
          simp only [hg, Option.some.injEq] at happ
          rw [← happ] at hs'
          have : sess = sess' := by
            have h2 : mapGet st.sessions sid = some sess' := hs'
            rw [hs] at h2
            cases h2
            rfl
          rw [← this]
          exact ⟨p, hp⟩
  | message c msg q now =>
      simp only [applyEvent] at happ
      cases hg : mapGet st.conns c with
      | none =>
          simp only [hg] at happ
          exact absurd happ (by simp)
      | some conn =>
          simp only [hg] at happ
          by_cases hrs : conn.readyState = 1
          · rw [if_pos hrs] at happ
            simp only [Option.some.injEq] at happ
            rw [← happ] at hs'
            by_cases hj : msg.type = "join"
            · unfold handleMessage at hs'
              rw [if_pos hj] at hs'
              by_cases hpw : cfg.relayPassword ≠ "" ∧ orDefault msg.password "" ≠ cfg.relayPassword
              · unfold join at hs'
                rw [if_pos hpw] at hs'
                have h2 : mapGet st.sessions sid = some sess' := hs'
                rw [hs] at h2
                cases h2
                exact ⟨p, hp⟩
              · rw [join_eq cfg st c msg q hpw] at hs'
                have h3 : mapGet (joinResult st c msg q).sessions sid = some sess' := hs'
                unfold joinResult at h3
                simp only at h3
                rw [mapGet_mapSet] at h3
                by_cases hq : resolvedSid msg q = sid
                · rw [if_pos hq] at h3
                  cases h3
                  rw [joinSessionResult_participants]
                  apply mapGet_mapSet_isSome
                  have hsA : sessionAt st (resolvedSid msg q) = sess := by
                    unfold sessionAt
                    rw [hq, hs]
                    rfl
                  rw [hsA]
                  exact ⟨p, hp⟩
                · rw [if_neg hq] at h3
                  rw [hs] at h3
                  cases h3
                  exact ⟨p, hp⟩
            · have hf := handleMessage_nonjoin_frame cfg q now st c msg hj
              rw [hf.1] at hs'
              rw [hs] at hs'
              cases hs'
              exact ⟨p, hp⟩
          · rw [if_neg hrs] at happ
            exact absurd happ (by simp)
  | transportClose c =>
      simp only [applyEvent] at happ
      cases hg : mapGet st.conns c with
      | none =>
          simp only [hg] at happ
          exact absurd happ (by simp)
      | some conn =>
          simp only [hg] at happ
          by_cases hrs : conn.readyState = 1
          · rw [if_pos hrs] at happ
            simp only [Option.some.injEq] at happ
            rw [← happ] at hs'
            set connC : Conn := { conn with readyState := 3 } with hconnC
            set stM : ServerState := { st with conns := mapSet st.conns c connC } with hstM
            have hgM : mapGet stM.conns c = some connC := by
              show mapGet (mapSet st.conns c connC) c = some connC
              rw [mapGet_mapSet, if_pos rfl]
            have hbind : (mapGet stM.conns c).bind (fun x => x.sid) = conn.sid := by
              rw [hgM]
              rfl
            cases hsidc : conn.sid with
            | none =>
                rw [close_of_unjoined stM c (by rw [hbind, hsidc])] at hs'
                have h2 : mapGet st.sessions sid = some sess' := hs'
                rw [hs] at h2
                cases h2
                exact ⟨p, hp⟩
            | some sidc =>
                have hbs : (mapGet stM.conns c).bind (fun x => x.sid) = some sidc := by
                  rw [hbind, hsidc]
                cases hreg : mapGet st.sessions sidc with
                | none =>
                    rw [close_of_no_session stM c sidc hbs hreg] at hs'
                    have h2 : mapGet st.sessions sid = some sess' := hs'
                    rw [hs] at h2
                    cases h2
                    exact ⟨p, hp⟩
                | some sessc =>
                    have hregM : mapGet stM.sessions sidc = some sessc := hreg
                    rw [close_eq stM c sidc sessc hbs hregM] at hs'
                    have h3 : mapGet (closeResult stM c sidc sessc).sessions sid = some sess' := hs'
                    unfold closeResult at h3
                    simp only at h3
                    by_cases hlen : (closeSessionResult (closeSession2 sessc c ((mapGet stM.conns c).getD Conn.fresh).id) c).clients.length = 0
                    · rw [if_pos hlen, mapGet_mapDelete] at h3
                      by_cases hq : sidc = sid
                      · rw [if_pos hq] at h3
                        exact absurd h3 (by simp)
                      · rw [if_neg hq] at h3
                        have h2 : mapGet st.sessions sid = some sess' := h3
                        rw [hs] at h2
                        cases h2
                        exact ⟨p, hp⟩
                    · rw [if_neg hlen, mapGet_mapSet] at h3
                      by_cases hq : sidc = sid
                      · rw [if_pos hq] at h3
                        cases h3
                        rw [closeSessionResult_participants]
                        apply closeSession2_participants_mono
                        rw [hq] at hreg
                        rw [hs] at hreg
                        cases hreg
                        exact hp
                      · rw [if_neg hq] at h3
                        have h2 : mapGet st.sessions sid = some sess' := h3
                        rw [hs] at h2
                        cases h2
                        exact ⟨p, hp⟩
          · rw [if_neg hrs] at happ
            exact absurd happ (by simp)

end Relay

namespace Relay

/-! ## Concrete example states used by witnesses and counterexamples -/

/-- No relay password configured. -/
def cfg0 : Config := ⟨""⟩

/-- A bare join message (all optional fields absent). -/
def joinMsg : InMsg := { type := "join" }

/-- State after one socket upgrade. -/
def exStA : ServerState :=
  (applyEvent cfg0 initState (Event.upgrade 0)).getD initState

/-- State after that socket joins the default session. -/
def exSt1 : ServerState :=
  (applyEvent cfg0 exStA (Event.message 0 joinMsg {} 0)).getD initState

/-- State after the same socket sends a second join. -/
def exSt2 : ServerState :=
  (applyEvent cfg0 exSt1 (Event.message 0 joinMsg {} 1)).getD initState

/-- The default session in `exSt1`. -/
def exSess1 : Session :=
  (mapGet exSt1.sessions "default").getD ⟨[], none, []⟩

/-- The default session in `exSt2`. -/
def exSess2 : Session :=
  (mapGet exSt2.sessions "default").getD ⟨[], none, []⟩

/-! ## Claim C1 -/

/-- C1: in every reachable state, every registered session's director is a
member of its connection set (in particular never dangling), and whenever
the connection set is non-empty exactly one director exists; election has
always settled by the time an event handler returns. -/
theorem claim1_director_invariant (cfg : Config) (st : ServerState)
    (h : Reachable cfg st) :
    ∀ sid sess, mapGet st.sessions sid = some sess →
      (sess.director = none ∨ ∃ d, sess.director = some d ∧ d ∈ sess.clients) ∧
      (sess.clients ≠ [] → ∃ d, sess.director = some d ∧ d ∈ sess.clients ∧
        ∀ d', sess.director = some d' → d' = d) := by
  intro sid sess hlook
  obtain ⟨hne, d, hd, hdm⟩ := sessionsWF_reachable cfg st h sid sess hlook
  refine ⟨Or.inr ⟨d, hd, hdm⟩, fun _ => ⟨d, hd, hdm, ?_⟩⟩
  intro d' hd'
  rw [hd] at hd'
  cases hd'
  rfl

/-- Witness for C1 at a concrete reachable state with one joined member. -/
theorem claim1_witness :
    (exSess1.director = none ∨ ∃ d, exSess1.director = some d ∧ d ∈ exSess1.clients) ∧
    (exSess1.clients ≠ [] → ∃ d, exSess1.director = some d ∧ d ∈ exSess1.clients ∧
      ∀ d', exSess1.director = some d' → d' = d) :=
  claim1_director_invariant cfg0 exSt1
    (Reachable.step exStA (Event.message 0 joinMsg {} 0) exSt1
      (Reachable.step initState (Event.upgrade 0) exStA Reachable.init (by decide))
      (by decide))
    "default" exSess1 (by decide)

/-! ## Claim C2 -/

/-- C2: when a relay password is configured and a join carries a wrong or
missing password, the connection is closed with code 1008 and nothing
else happens: no session is created, no connection identity is assigned,
nothing is sent. -/
theorem claim2_bad_password (cfg : Config) (st : ServerState) (cid : Nat)
    (msg : InMsg) (q : Query) (now : Nat)
    (hj : msg.type = "join") (hpw : cfg.relayPassword ≠ "")
    (hbad : orDefault msg.password "" ≠ cfg.relayPassword) :
    (handleMessage cfg q now st cid msg).sessions = st.sessions ∧
      (handleMessage cfg q now st cid msg).conns = st.conns ∧
      (handleMessage cfg q now st cid msg).nextUuid = st.nextUuid ∧
      (handleMessage cfg q now st cid msg).sent = st.sent ∧
      (handleMessage cfg q now st cid msg).closeCalls =
        st.closeCalls ++ [(cid, 1008)] := by
  unfold handleMessage
  rw [if_pos hj]
  unfold join
  rw [if_pos ⟨hpw, hbad⟩]
  exact ⟨rfl, rfl, rfl, rfl, rfl⟩

/-- Witness for C2: a secret is configured and the join has no password. -/
theorem claim2_witness :
    (handleMessage ⟨"secret"⟩ {} 0 exStA 0 joinMsg).sessions = exStA.sessions ∧
      (handleMessage ⟨"secret"⟩ {} 0 exStA 0 joinMsg).conns = exStA.conns ∧
      (handleMessage ⟨"secret"⟩ {} 0 exStA 0 joinMsg).nextUuid = exStA.nextUuid ∧
      (handleMessage ⟨"secret"⟩ {} 0 exStA 0 joinMsg).sent = exStA.sent ∧
      (handleMessage ⟨"secret"⟩ {} 0 exStA 0 joinMsg).closeCalls =
        exStA.closeCalls ++ [(0, 1008)] :=
  claim2_bad_password ⟨"secret"⟩ exStA 0 joinMsg {} 0 rfl (by decide) (by decide)

/-! ## Claim C3 -/

/-- Counterexample to C3 as stated: an un-joined connection that sends
`ping` does receive a reply (a pong), so not every non-join message is
dropped with nothing sent. -/
theorem claim3_counterexample :
    ((mapGet exStA.conns 0).bind (fun c => c.sid) = none) ∧
      (handleMessage cfg0 {} 5 exStA 0 { type := "ping" }).sent =
        exStA.sent ++ [(0, OutMsg.pong "pong" 5)] ∧
      (handleMessage cfg0 {} 5 exStA 0 { type := "ping" }).sent ≠ exStA.sent := by
  refine ⟨by decide, by decide, by decide⟩

/-- C3 (amended): a message on a connection with no resolved session is
dropped — no state change and nothing sent — for every type except
`join`, `ping` and `system/ping`; the two ping types are answered with a
pong even before a join. -/
theorem claim3_prejoin_drop (cfg : Config) (q : Query) (now : Nat)
    (st : ServerState) (cid : Nat) (msg : InMsg)
    (hun : (mapGet st.conns cid).bind (fun c => c.sid) = none)
    (hj : msg.type ≠ "join") (hp1 : msg.type ≠ "ping")
    (hp2 : msg.type ≠ "system/ping") :
    handleMessage cfg q now st cid msg = st := by
  unfold handleMessage
  rw [if_neg hj]
  by_cases ht : msg.type = "telemetry"
  · rw [if_pos ht]
    exact relayTelemetry_of_unjoined st cid msg hun
  · rw [if_neg ht]
    by_cases hpt : msg.type ∈ passthroughTypes
    · rw [if_pos hpt]
      exact relayEvent_of_unjoined st cid msg.type _ now hun
    · rw [if_neg hpt]
      rw [if_neg ?hng]
      case hng =>
        intro hd
        cases hd with
        | inl hd => exact hp2 hd
        | inr hd => exact hp1 hd

/-- Witness for the amended C3: a pre-join telemetry message is a no-op. -/
theorem claim3_witness :
    handleMessage cfg0 {} 0 exStA 0 { type := "telemetry" } = exStA :=
  claim3_prejoin_drop cfg0 {} 0 exStA 0 { type := "telemetry" }
    (by decide) (by decide) (by decide) (by decide)

/-! ## Claim C10 -/

/-- C10: the close handler is a no-op for a connection that never joined:
the state, including the registry and the send log, is unchanged. -/
theorem claim10_close_before_join (st : ServerState) (cid : Nat)
    (hun : (mapGet st.conns cid).bind (fun c => c.sid) = none) :
    close st cid = st :=
  close_of_unjoined st cid hun

/-- Witness for C10 at a concrete upgraded-but-never-joined socket. -/
theorem claim10_witness : close exStA 0 = exStA :=
  claim10_close_before_join exStA 0 (by decide)

end Relay

namespace Relay

/-! ## Claim C4 -/

/-- Counterexample to C4 as stated: a second join on an already-joined
connection is not ignored — the connection's identity changes (0 to 1)
and a second Participant record appears in the session. -/
theorem claim4_counterexample :
    Reachable cfg0 exSt2 ∧
      ((mapGet exSt1.conns 0).bind (fun c => c.id) = some 0) ∧
      ((mapGet exSt2.conns 0).bind (fun c => c.id) = some 1) ∧
      some (1 : Nat) ≠ some 0 ∧
      (mapGet exSt1.sessions "default").map (fun s => s.participants.length) = some 1 ∧
      (mapGet exSt2.sessions "default").map (fun s => s.participants.length) = some 2 := by
  refine ⟨?_, by decide, by decide, by decide, by decide, by decide⟩
  exact Reachable.step exSt1 (Event.message 0 joinMsg {} 1) exSt2
    (Reachable.step exStA (Event.message 0 joinMsg {} 0) exSt1
      (Reachable.step initState (Event.upgrade 0) exStA Reachable.init (by decide))
      (by decide))
    (by decide)

/-- C4 (amended): a second join on an already-joined connection re-runs
the join protocol: the connection is assigned a fresh identity, a new
Participant record is created in the (re-)resolved session, and when that
session differs from the old one the connection is not removed from the
old session's state. -/
theorem claim4_second_join_reruns (cfg : Config) (st : ServerState) (cid : Nat)
    (msg : InMsg) (q : Query) (now : Nat) (conn : Conn) (s : String)
    (hg : mapGet st.conns cid = some conn) (hjoined : conn.sid = some s)
    (hj : msg.type = "join")
    (hpw : ¬(cfg.relayPassword ≠ "" ∧ orDefault msg.password "" ≠ cfg.relayPassword)) :
    ((mapGet (handleMessage cfg q now st cid msg).conns cid).bind (fun c => c.id) =
      some st.nextUuid) ∧
      (∃ sess', mapGet (handleMessage cfg q now st cid msg).sessions
          (resolvedSid msg q) = some sess' ∧
        mapGet sess'.participants st.nextUuid =
          some ⟨st.nextUuid, resolvedName msg, true⟩ ∧
        cid ∈ sess'.clients) ∧
      (∀ oldSess, s ≠ resolvedSid msg q → mapGet st.sessions s = some oldSess →
        mapGet (handleMessage cfg q now st cid msg).sessions s = some oldSess) := by
  unfold handleMessage
  rw [if_pos hj, join_eq cfg st cid msg q hpw]
  refine ⟨?_, ⟨joinSessionResult (sessionAt st (resolvedSid msg q)) cid st.nextUuid
    (resolvedName msg) (resolvedRole msg), ?_, ?_, ?_⟩, ?_⟩
  · show (mapGet (mapSet st.conns cid (joinConn ((mapGet st.conns cid).getD Conn.fresh) st.nextUuid (resolvedSid msg q) (resolvedName msg) (resolvedRole msg) (orNullStr msg.client_uuid))) cid).bind (fun c => c.id) = some st.nextUuid
    rw [mapGet_mapSet, if_pos rfl]
    rfl
  · show mapGet (mapSet st.sessions (resolvedSid msg q) _) (resolvedSid msg q) = _
    rw [mapGet_mapSet, if_pos rfl]
  · rw [joinSessionResult_participants, mapGet_mapSet, if_pos rfl]
  · rw [joinSessionResult_clients, mem_setAdd]
    exact Or.inr rfl
  · intro oldSess hne hold
    show mapGet (mapSet st.sessions (resolvedSid msg q) _) s = some oldSess
    rw [mapGet_mapSet, if_neg (fun he => hne he.symm)]
    exact hold

/-- Witness for the amended C4: the already-joined socket of `exSt1`
sends a second join. -/
theorem claim4_witness :
    ((mapGet (handleMessage cfg0 {} 1 exSt1 0 joinMsg).conns 0).bind (fun c => c.id) =
      some exSt1.nextUuid) ∧
      (∃ sess', mapGet (handleMessage cfg0 {} 1 exSt1 0 joinMsg).sessions
          (resolvedSid joinMsg {}) = some sess' ∧
        mapGet sess'.participants exSt1.nextUuid =
          some ⟨exSt1.nextUuid, resolvedName joinMsg, true⟩ ∧
        0 ∈ sess'.clients) ∧
      (∀ oldSess, "default" ≠ resolvedSid joinMsg {} →
        mapGet exSt1.sessions "default" = some oldSess →
        mapGet (handleMessage cfg0 {} 1 exSt1 0 joinMsg).sessions "default" = some oldSess) :=
  claim4_second_join_reruns cfg0 exSt1 0 joinMsg {} 1
    ((mapGet exSt1.conns 0).getD Conn.fresh) "default" (by decide) (by decide)
    rfl (by decide)

/-! ## Claim C5 -/

/-- Counterexample to C5 as stated: `cc.channel` carrying the number 0 is
numeric yet relays as the fallback 1, and `note.chIn` carrying the number
0 is present yet omitted — the fallback is not applied "exactly when the
field is absent or non-numeric". -/
theorem claim5_counterexample :
    toNumber (JVal.vnum 0) = some 0 ∧
      (normCC ⟨JVal.vnum 0, JVal.vnum 5, JVal.vnum 7⟩).channel = 1 ∧
      (normCC ⟨JVal.vnum 0, JVal.vnum 5, JVal.vnum 7⟩).channel ≠ 0 ∧
      (normNote ⟨JVal.vbool true, JVal.vnum 60, JVal.vnum 100, JVal.vnum 0⟩).chIn = none := by
  refine ⟨by decide, by decide, by decide, by decide⟩

/-- The outbound telemetry message built for a sender. -/
def telemetryMsgOf (st : ServerState) (cid : Nat) (msg : InMsg) : OutMsg :=
  OutMsg.telemetry ((mapGet st.conns cid).getD Conn.fresh).id
    ((mapGet st.conns cid).getD Conn.fresh).name
    (msg.note.map normNote) (msg.cc.map normCC)

/-- C5 (amended): telemetry from a joined sender relays `note`/`cc`
normalized by `normNote`/`normCC`; each numeric field keeps its coerced
number exactly when that number is truthy (non-zero, non-NaN) and falls
back (note 0, vel 0, channel 1, cc 11, value 0) when the raw value is
absent, non-numeric, or coerces to 0; `note.on` becomes a boolean; `chIn`
is included (as the coerced number) exactly when the raw value is truthy;
numeric strings such as "77" coerce to their value. -/
theorem claim5_normalization (st : ServerState) (cid : Nat) (msg : InMsg)
    (sid : String) (sess : Session)
    (hc : (mapGet st.conns cid).bind (fun c => c.sid) = some sid)
    (hs : mapGet st.sessions sid = some sess) :
    ((relayTelemetry st cid msg).sent = st.sent ++
      (openClients st.conns sess.clients).map (fun c => (c, telemetryMsgOf st cid msg))) ∧
      (∀ n : JNote,
        (normNote n).noteOn = truthy n.noteOn ∧
        ((toNumber n.note = none ∨ toNumber n.note = some 0) → (normNote n).note = 0) ∧
        (∀ k, toNumber n.note = some k → k ≠ 0 → (normNote n).note = k) ∧
        ((toNumber n.vel = none ∨ toNumber n.vel = some 0) → (normNote n).vel = 0) ∧
        (∀ k, toNumber n.vel = some k → k ≠ 0 → (normNote n).vel = k) ∧
        (truthy n.chIn = false → (normNote n).chIn = none) ∧
        (truthy n.chIn = true → (normNote n).chIn = some (toNumber n.chIn))) ∧
      (∀ c : JCC,
        ((toNumber c.channel = none ∨ toNumber c.channel = some 0) → (normCC c).channel = 1) ∧
        (∀ k, toNumber c.channel = some k → k ≠ 0 → (normCC c).channel = k) ∧
        ((toNumber c.cc = none ∨ toNumber c.cc = some 0) → (normCC c).cc = 11) ∧
        (∀ k, toNumber c.cc = some k → k ≠ 0 → (normCC c).cc = k) ∧
        ((toNumber c.value = none ∨ toNumber c.value = some 0) → (normCC c).value = 0) ∧
        (∀ k, toNumber c.value = some k → k ≠ 0 → (normCC c).value = k)) ∧
      strToNum "77" = some 77 := by
  have hOr : ∀ (v : JVal) (d : Int),
      ((toNumber v = none ∨ toNumber v = some 0) → jsOrNum v d = d) ∧
      (∀ k, toNumber v = some k → k ≠ 0 → jsOrNum v d = k) := by
    intro v d
    constructor
    · intro hv
      unfold jsOrNum
      rcases hv with hv | hv <;> rw [hv] <;> simp
    · intro k hk hkne
      unfold jsOrNum
      rw [hk]
      simp [hkne]
  refine ⟨?_, ?_, ?_, by decide⟩
  · rw [relayTelemetry_eq st cid msg sid sess hc hs]
    rfl
  · intro n
    refine ⟨rfl, (hOr n.note 0).1, (hOr n.note 0).2, (hOr n.vel 0).1, (hOr n.vel 0).2, ?_, ?_⟩
    · intro hch
      unfold normNote
      rw [hch]
      rfl
    · intro hch
      unfold normNote
      rw [hch]
      rfl
  · intro c
    exact ⟨(hOr c.channel 1).1, (hOr c.channel 1).2, (hOr c.cc 11).1, (hOr c.cc 11).2,
      (hOr c.value 0).1, (hOr c.value 0).2⟩

/-- A telemetry message with a numeric-string velocity, used as witness. -/
def telemMsgW : InMsg :=
  { type := "telemetry",
    note := some ⟨JVal.vbool true, JVal.vstr "60", JVal.vstr "77", JVal.undef⟩,
    cc := some ⟨JVal.vnum 3, JVal.vnum 7, JVal.vnum 64⟩ }

/-- Witness for the amended C5 at the joined socket of `exSt1`. -/
theorem claim5_witness :
    ((relayTelemetry exSt1 0 telemMsgW).sent = exSt1.sent ++
      (openClients exSt1.conns exSess1.clients).map (fun c => (c, telemetryMsgOf exSt1 0 telemMsgW))) ∧
      (∀ n : JNote,
        (normNote n).noteOn = truthy n.noteOn ∧
        ((toNumber n.note = none ∨ toNumber n.note = some 0) → (normNote n).note = 0) ∧
        (∀ k, toNumber n.note = some k → k ≠ 0 → (normNote n).note = k) ∧
        ((toNumber n.vel = none ∨ toNumber n.vel = some 0) → (normNote n).vel = 0) ∧
        (∀ k, toNumber n.vel = some k → k ≠ 0 → (normNote n).vel = k) ∧
        (truthy n.chIn = false → (normNote n).chIn = none) ∧
        (truthy n.chIn = true → (normNote n).chIn = some (toNumber n.chIn))) ∧
      (∀ c : JCC,
        ((toNumber c.channel = none ∨ toNumber c.channel = some 0) → (normCC c).channel = 1) ∧
        (∀ k, toNumber c.channel = some k → k ≠ 0 → (normCC c).channel = k) ∧
        ((toNumber c.cc = none ∨ toNumber c.cc = some 0) → (normCC c).cc = 11) ∧
        (∀ k, toNumber c.cc = some k → k ≠ 0 → (normCC c).cc = k) ∧
        ((toNumber c.value = none ∨ toNumber c.value = some 0) → (normCC c).value = 0) ∧
        (∀ k, toNumber c.value = some k → k ≠ 0 → (normCC c).value = k)) ∧
      strToNum "77" = some 77 :=
  claim5_normalization exSt1 0 telemMsgW "default" exSess1 (by decide) (by decide)

/-! ## Claim C7 -/

/-- C7: when the last member of a session disconnects, the session id is
gone from the registry immediately; and a join that resolves to an absent
session id builds a fresh session whose participant map holds exactly the
joiner — no history is carried over. -/
theorem claim7_session_deletion (st : ServerState) (cid : Nat) (sid : String)
    (sess : Session) (cfg : Config) (msg : InMsg) (q : Query) (now : Nat)
    (hc : (mapGet st.conns cid).bind (fun c => c.sid) = some sid)
    (hs : mapGet st.sessions sid = some sess)
    (hlast : setRemove sess.clients cid = []) :
    mapGet (close st cid).sessions sid = none ∧
      (∀ st2 : ServerState, mapGet st2.sessions (resolvedSid msg q) = none →
        msg.type = "join" →
        ¬(cfg.relayPassword ≠ "" ∧ orDefault msg.password "" ≠ cfg.relayPassword) →
        ∃ sess', mapGet (handleMessage cfg q now st2 cid msg).sessions
            (resolvedSid msg q) = some sess' ∧
          sess'.participants = [(st2.nextUuid, ⟨st2.nextUuid, resolvedName msg, true⟩)]) := by
  constructor
  · rw [close_eq st cid sid sess hc hs]
    unfold closeResult
    simp only
    have hlen : (closeSessionResult (closeSession2 sess cid
        ((mapGet st.conns cid).getD Conn.fresh).id) cid).clients.length = 0 := by
      rw [closeSessionResult_clients, closeSession2_clients, hlast]
      rfl
    rw [if_pos hlen, mapGet_mapDelete, if_pos rfl]
  · intro st2 habsent hj hpw
    unfold handleMessage
    rw [if_pos hj, join_eq cfg st2 cid msg q hpw]
    refine ⟨joinSessionResult (sessionAt st2 (resolvedSid msg q)) cid st2.nextUuid
      (resolvedName msg) (resolvedRole msg), ?_, ?_⟩
    · show mapGet (mapSet st2.sessions (resolvedSid msg q) _) (resolvedSid msg q) = _
      rw [mapGet_mapSet, if_pos rfl]
    · rw [joinSessionResult_participants]
      have hempty : sessionAt st2 (resolvedSid msg q) = ⟨[], none, []⟩ := by
        unfold sessionAt
        rw [habsent]
        rfl
      rw [hempty]
      rfl

/-- Witness for C7: closing the only member of `exSt1` deletes "default",
and a fresh join of an absent id starts with exactly the joiner. -/
theorem claim7_witness :
    mapGet (close exSt1 0).sessions "default" = none ∧
      (∀ st2 : ServerState, mapGet st2.sessions (resolvedSid joinMsg {}) = none →
        joinMsg.type = "join" →
        ¬(cfg0.relayPassword ≠ "" ∧ orDefault joinMsg.password "" ≠ cfg0.relayPassword) →
        ∃ sess', mapGet (handleMessage cfg0 {} 7 st2 0 joinMsg).sessions
            (resolvedSid joinMsg {}) = some sess' ∧
          sess'.participants = [(st2.nextUuid, ⟨st2.nextUuid, resolvedName joinMsg, true⟩)]) :=
  claim7_session_deletion exSt1 0 "default" exSess1 cfg0 joinMsg {} 7
    (by decide) (by decide) (by decide)

end Relay

namespace Relay

/-! ## Claim C6 -/

theorem joinSessionResult_director_hint (sess0 : Session) (cid newId : Nat)
    (name : String) :
    (joinSessionResult sess0 cid newId name "director").director = some cid := by
  unfold joinSessionResult joinPreSession
  rw [if_pos rfl]

/-- C6 (amended): when a session has no director, `assignDirector`
promotes the head of the connection set in insertion order and sends it a
role message; on traces where each connection joins at most once every
member of the set is still connected (readyState OPEN), so that head is
the first-inserted still-connected connection (after a duplicate join the
set can retain a closed socket, and that stale head is promoted instead —
see the counterexample trace); and a join carrying a director/host role
hint makes the joiner director unconditionally, displacing any prior
director, with the join's only role message going to the joiner (the
displaced director is not notified). -/
theorem claim6_director_election (cfg : Config) (st : ServerState)
    (hNR : ReachableNR cfg st) :
    (∀ sid sess, mapGet st.sessions sid = some sess →
      ∀ c, c ∈ sess.clients → connReadyState st.conns c = 1) ∧
      (∀ st' sess, sess.director = none →
        (assignDirector st' sess).2.director = sess.clients.head? ∧
        (assignDirector st' sess).1.sent = st'.sent ++
          (match sess.clients.head? with
           | some f => [(f, OutMsg.role "director")]
           | none => [])) ∧
      (∀ cid msg q now, msg.type = "join" →
        (msg.role = some "director" ∨ msg.role = some "host") →
        ¬(cfg.relayPassword ≠ "" ∧ orDefault msg.password "" ≠ cfg.relayPassword) →
        (∃ sess', mapGet (handleMessage cfg q now st cid msg).sessions
            (resolvedSid msg q) = some sess' ∧ sess'.director = some cid) ∧
        (∀ c r, (c, OutMsg.role r) ∈ (handleMessage cfg q now st cid msg).sent →
          (c, OutMsg.role r) ∈ st.sent ∨ c = cid)) := by
  have hI := invP_reachableNR cfg st hNR
  refine ⟨?_, ?_, ?_⟩
  · intro sid sess hlook c hc
    obtain ⟨conn, hconn, _, hrs, _⟩ := hI.clientsWF sid sess hlook c hc
    unfold connReadyState
    rw [hconn]
    exact hrs
  · intro st' sess hdir
    cases hh : sess.clients.head? with
    | some f =>
        have hcons := head?_some_eq_cons sess.clients f hh
        rw [assignDirector_of_none_cons st' sess f sess.clients.tail hdir hcons]
        constructor
        · rfl
        · rfl
    | none =>
        rw [assignDirector_of_none_nil st' sess hdir (List.head?_eq_none_iff.mp hh)]
        constructor
        · exact hdir
        · simp
  · intro cid msg q now hj hint hpw
    have hrole : resolvedRole msg = "director" := by
      unfold resolvedRole
      rw [if_pos hint]
    unfold handleMessage
    rw [if_pos hj, join_eq cfg st cid msg q hpw]
    constructor
    · refine ⟨joinSessionResult (sessionAt st (resolvedSid msg q)) cid st.nextUuid
        (resolvedName msg) (resolvedRole msg), ?_, ?_⟩
      · show mapGet (mapSet st.sessions (resolvedSid msg q) _) (resolvedSid msg q) = _
        rw [mapGet_mapSet, if_pos rfl]
      · rw [hrole]
        exact joinSessionResult_director_hint _ cid st.nextUuid _
    · intro c r hmem
      have hsent : (joinResult st cid msg q).sent = st.sent ++
          joinRoleMsgs (joinPreSession (sessionAt st (resolvedSid msg q)) cid
            st.nextUuid (resolvedName msg)) cid (resolvedRole msg) ++
          (openClients (mapSet st.conns cid (joinConn
              ((mapGet st.conns cid).getD Conn.fresh) st.nextUuid
              (resolvedSid msg q) (resolvedName msg) (resolvedRole msg)
              (orNullStr msg.client_uuid)))
            (joinSessionResult (sessionAt st (resolvedSid msg q)) cid st.nextUuid
              (resolvedName msg) (resolvedRole msg)).clients).map
            (fun c => (c, presenceMsg (resolvedSid msg q)
              (joinSessionResult (sessionAt st (resolvedSid msg q)) cid st.nextUuid
                (resolvedName msg) (resolvedRole msg)))) := rfl
      rw [hsent] at hmem
      rcases List.mem_append.mp hmem with h1 | h1
      · rcases List.mem_append.mp h1 with h2 | h2
        · exact Or.inl h2
        · rw [hrole] at h2
          unfold joinRoleMsgs at h2
          rw [if_pos rfl] at h2
          rcases List.mem_singleton.mp h2 with h3
          have : c = cid := congrArg Prod.fst h3
          exact Or.inr this
      · obtain ⟨x, hx, hxe⟩ := List.mem_map.mp h1
        have hsnd := congrArg Prod.snd hxe
        simp only [presenceMsg] at hsnd
        exact absurd hsnd (by simp)

/-- Witness for C6 at the concrete single-join-reachable state `exSt1`. -/
theorem claim6_witness :
    (∀ sid sess, mapGet exSt1.sessions sid = some sess →
      ∀ c, c ∈ sess.clients → connReadyState exSt1.conns c = 1) ∧
      (∀ st' sess, sess.director = none →
        (assignDirector st' sess).2.director = sess.clients.head? ∧
        (assignDirector st' sess).1.sent = st'.sent ++
          (match sess.clients.head? with
           | some f => [(f, OutMsg.role "director")]
           | none => [])) ∧
      (∀ cid msg q now, msg.type = "join" →
        (msg.role = some "director" ∨ msg.role = some "host") →
        ¬(cfg0.relayPassword ≠ "" ∧ orDefault msg.password "" ≠ cfg0.relayPassword) →
        (∃ sess', mapGet (handleMessage cfg0 q now exSt1 cid msg).sessions
            (resolvedSid msg q) = some sess' ∧ sess'.director = some cid) ∧
        (∀ c r, (c, OutMsg.role r) ∈ (handleMessage cfg0 q now exSt1 cid msg).sent →
          (c, OutMsg.role r) ∈ exSt1.sent ∨ c = cid)) :=
  claim6_director_election cfg0 exSt1
    (ReachableNR.step exStA (Event.message 0 joinMsg {} 0) exSt1
      (ReachableNR.step initState (Event.upgrade 0) exStA ReachableNR.init
        (by decide) (by decide))
      (by decide) (by decide))

/-! ## Claim C8 -/

/-- Counterexample to C8 as stated: after a duplicate join (a reachable
trace), participant 0 of the default session still has `connected = true`
but no connection in the session's connection set carries id 0 — the sole
member's id is 1. -/
theorem claim8_counterexample :
    Reachable cfg0 exSt2 ∧
      mapGet exSt2.sessions "default" = some exSess2 ∧
      mapGet exSess2.participants 0 = some ⟨0, "Performer", true⟩ ∧
      exSess2.clients = [0] ∧
      ((mapGet exSt2.conns 0).bind (fun c => c.id) = some 1) ∧
      ((mapGet exSt2.conns 0).bind (fun c => c.id) ≠ some 0) := by
  refine ⟨?_, by decide, by decide, by decide, by decide, by decide⟩
  exact Reachable.step exSt1 (Event.message 0 joinMsg {} 1) exSt2
    (Reachable.step exStA (Event.message 0 joinMsg {} 0) exSt1
      (Reachable.step initState (Event.upgrade 0) exStA Reachable.init (by decide))
      (by decide))
    (by decide)

/-- C8 (amended): on traces where each connection joins at most once,
every Participant with `connected = true` corresponds to exactly one live
(OPEN) connection of its session's connection set; and across any further
event, a participant record is retained (possibly with its flag flipped)
for as long as its session stays registered. -/
theorem claim8_participant_correspondence (cfg : Config) (st : ServerState)
    (h : ReachableNR cfg st) :
    (∀ sid sess, mapGet st.sessions sid = some sess →
      ∀ pid p, mapGet sess.participants pid = some p → p.connected = true →
        ∃ c, c ∈ sess.clients ∧ connReadyState st.conns c = 1 ∧
          ((mapGet st.conns c).bind (fun x => x.id) = some pid) ∧
          ∀ c', c' ∈ sess.clients →
            (mapGet st.conns c').bind (fun x => x.id) = some pid → c' = c) ∧
      (∀ e st' sid sess sess' pid p, applyEvent cfg st e = some st' →
        mapGet st.sessions sid = some sess →
        mapGet st'.sessions sid = some sess' →
        mapGet sess.participants pid = some p →
        ∃ p', mapGet sess'.participants pid = some p') := by
  have hI := invP_reachableNR cfg st h
  constructor
  · intro sid sess hlook pid p hp hcon
    obtain ⟨_, _, hex⟩ := hI.partsWF sid sess hlook pid p hp
    obtain ⟨c, hcmem, conn, hconn, hid⟩ := hex hcon
    obtain ⟨conn2, hconn2, _, hrs2, _⟩ := hI.clientsWF sid sess hlook c hcmem
    rw [hconn] at hconn2
    cases hconn2
    refine ⟨c, hcmem, ?_, ?_, ?_⟩
    · unfold connReadyState
      rw [hconn]
      exact hrs2
    · rw [hconn]
      exact hid
    · intro c' hc' hid'
      cases hcg : mapGet st.conns c' with
      | none =>
          rw [hcg] at hid'
          simp at hid'
      | some conn' =>
          rw [hcg] at hid'
          have hid'2 : conn'.id = some pid := hid'
          exact hI.idInj c' c conn' conn pid hcg hconn hid'2 hid
  · intro e st' sid sess sess' pid p happ hsx hsx' hpx
    exact participants_monotone cfg st st' e happ sid sess sess' hsx hsx' pid p hpx

/-- Witness for the amended C8 at the concrete state `exSt1`. -/
theorem claim8_witness :
    (∀ sid sess, mapGet exSt1.sessions sid = some sess →
      ∀ pid p, mapGet sess.participants pid = some p → p.connected = true →
        ∃ c, c ∈ sess.clients ∧ connReadyState exSt1.conns c = 1 ∧
          ((mapGet exSt1.conns c).bind (fun x => x.id) = some pid) ∧
          ∀ c', c' ∈ sess.clients →
            (mapGet exSt1.conns c').bind (fun x => x.id) = some pid → c' = c) ∧
      (∀ e st' sid sess sess' pid p, applyEvent cfg0 exSt1 e = some st' →
        mapGet exSt1.sessions sid = some sess →
        mapGet st'.sessions sid = some sess' →
        mapGet sess.participants pid = some p →
        ∃ p', mapGet sess'.participants pid = some p') :=
  claim8_participant_correspondence cfg0 exSt1
    (ReachableNR.step exStA (Event.message 0 joinMsg {} 0) exSt1
      (ReachableNR.step initState (Event.upgrade 0) exStA ReachableNR.init
        (by decide) (by decide))
      (by decide) (by decide))

/-! ## Claim C9 -/

/-- C9: every broadcast and relay loop delivers only to member connections
whose transport readyState is 1 (OPEN); a member in any other state is
skipped — it receives nothing new — while the session's state, including
its connection set, is untouched by the delivery. -/
theorem claim9_open_only_delivery (st : ServerState) (sess : Session) (m : OutMsg)
    (cid : Nat) (msg : InMsg) (ty : String) (d : JVal) (now : Nat) (sid : String)
    (hc : (mapGet st.conns cid).bind (fun c => c.sid) = some sid)
    (hs : mapGet st.sessions sid = some sess) :
    ((broadcast st sess m).sent = st.sent ++
      (openClients st.conns sess.clients).map (fun c => (c, m))) ∧
      ((broadcast st sess m).sessions = st.sessions) ∧
      (∀ c, c ∈ openClients st.conns sess.clients ↔
        c ∈ sess.clients ∧ connReadyState st.conns c = 1) ∧
      (∀ c mm, ¬ connReadyState st.conns c = 1 →
        (c, mm) ∈ (broadcast st sess m).sent → (c, mm) ∈ st.sent) ∧
      ((relayTelemetry st cid msg).sent = st.sent ++
        (openClients st.conns sess.clients).map (fun c => (c, telemetryMsgOf st cid msg))) ∧
      ((relayTelemetry st cid msg).sessions = st.sessions) ∧
      ((relayEvent st cid ty d now).sent = st.sent ++
        (openClients st.conns sess.clients).map (fun c =>
          (c, OutMsg.event ty ((mapGet st.conns cid).getD Conn.fresh).id
            ((mapGet st.conns cid).getD Conn.fresh).name d now))) ∧
      ((relayEvent st cid ty d now).sessions = st.sessions) := by
  refine ⟨?_, ?_, ?_, ?_, ?_, ?_, ?_, ?_⟩
  · rw [broadcast_spec]
  · rw [broadcast_spec]
  · intro c
    exact mem_openClients st.conns sess.clients c
  · intro c mm hnrs hmem
    rw [broadcast_spec] at hmem
    have hmem2 : (c, mm) ∈ st.sent ++
        (openClients st.conns sess.clients).map (fun c => (c, m)) := hmem
    rcases List.mem_append.mp hmem2 with h1 | h1
    · exact h1
    · obtain ⟨x, hx, hxe⟩ := List.mem_map.mp h1
      have hx1 : x = c := congrArg Prod.fst hxe
      rw [hx1] at hx
      rw [mem_openClients] at hx
      exact absurd hx.2 hnrs
  · rw [relayTelemetry_eq st cid msg sid sess hc hs]
    rfl
  · rw [relayTelemetry_eq st cid msg sid sess hc hs]
  · rw [relayEvent_eq st cid ty d now sid sess hc hs]
  · rw [relayEvent_eq st cid ty d now sid sess hc hs]

/-- Witness for C9 at the joined socket of `exSt1`. -/
theorem claim9_witness :
    ((broadcast exSt1 exSess1 (OutMsg.role "x")).sent = exSt1.sent ++
      (openClients exSt1.conns exSess1.clients).map (fun c => (c, OutMsg.role "x"))) ∧
      ((broadcast exSt1 exSess1 (OutMsg.role "x")).sessions = exSt1.sessions) ∧
      (∀ c, c ∈ openClients exSt1.conns exSess1.clients ↔
        c ∈ exSess1.clients ∧ connReadyState exSt1.conns c = 1) ∧
      (∀ c mm, ¬ connReadyState exSt1.conns c = 1 →
        (c, mm) ∈ (broadcast exSt1 exSess1 (OutMsg.role "x")).sent → (c, mm) ∈ exSt1.sent) ∧
      ((relayTelemetry exSt1 0 { type := "telemetry" }).sent = exSt1.sent ++
        (openClients exSt1.conns exSess1.clients).map (fun c =>
          (c, telemetryMsgOf exSt1 0 { type := "telemetry" }))) ∧
      ((relayTelemetry exSt1 0 { type := "telemetry" }).sessions = exSt1.sessions) ∧
      ((relayEvent exSt1 0 "midi/cc" JVal.vnull 2).sent = exSt1.sent ++
        (openClients exSt1.conns exSess1.clients).map (fun c =>
          (c, OutMsg.event "midi/cc" ((mapGet exSt1.conns 0).getD Conn.fresh).id
            ((mapGet exSt1.conns 0).getD Conn.fresh).name JVal.vnull 2))) ∧
      ((relayEvent exSt1 0 "midi/cc" JVal.vnull 2).sessions = exSt1.sessions) :=
  claim9_open_only_delivery exSt1 exSess1 (OutMsg.role "x") 0 { type := "telemetry" }
    "midi/cc" JVal.vnull 2 "default" (by decide) (by decide)

end Relay

namespace Relay

/-! ## Counterexample trace for claim C6 -/

/-- Join of session "s1" with a director role hint. -/
def c6m0 : InMsg := { type := "join", session_id := some "s1", role := some "director" }

/-- Plain join of session "s1". -/
def c6m1 : InMsg := { type := "join", session_id := some "s1" }

/-- Plain join of session "s2". -/
def c6m2 : InMsg := { type := "join", session_id := some "s2" }

def c6s1 : ServerState := (applyEvent cfg0 initState (Event.upgrade 0)).getD initState

def c6s2 : ServerState := (applyEvent cfg0 c6s1 (Event.message 0 c6m0 {} 0)).getD initState

def c6s3 : ServerState := (applyEvent cfg0 c6s2 (Event.upgrade 1)).getD initState

def c6s4 : ServerState := (applyEvent cfg0 c6s3 (Event.message 1 c6m1 {} 1)).getD initState

def c6s5 : ServerState := (applyEvent cfg0 c6s4 (Event.upgrade 2)).getD initState

def c6s6 : ServerState := (applyEvent cfg0 c6s5 (Event.message 2 c6m1 {} 2)).getD initState

def c6s7 : ServerState := (applyEvent cfg0 c6s6 (Event.message 1 c6m2 {} 3)).getD initState

def c6s8 : ServerState := (applyEvent cfg0 c6s7 (Event.transportClose 1)).getD initState

/-- Final state of the stale-head trace: socket 0 joins "s1" as director,
1 and 2 join "s1", 1 re-joins "s2" (a duplicate join, so it stays in
"s1"'s connection set), 1's transport closes (removing it only from
"s2"), then 0's transport closes. -/
def c6St : ServerState := (applyEvent cfg0 c6s8 (Event.transportClose 0)).getD initState

/-- Session "s1" in the final state of the stale-head trace. -/
def c6Sess : Session := (mapGet c6St.sessions "s1").getD ⟨[], none, []⟩

/-- Counterexample to C6 as stated: on a reachable duplicate-join trace,
when the director of "s1" disconnects the election promotes the head of
the connection set — socket 1, whose transport is already closed
(readyState 3) — while socket 2, the first-inserted still-connected
member, is passed over; so the promoted connection is not the
first-inserted still-connected one. -/
theorem claim6_counterexample :
    Reachable cfg0 c6St ∧
      mapGet c6St.sessions "s1" = some c6Sess ∧
      c6Sess.clients = [1, 2] ∧
      c6Sess.director = some 1 ∧
      connReadyState c6St.conns 1 = 3 ∧
      connReadyState c6St.conns 2 = 1 ∧
      c6Sess.director ≠ some 2 := by
  refine ⟨?_, by decide, by decide, by decide, by decide, by decide, by decide⟩
  exact Reachable.step c6s8 (Event.transportClose 0) c6St
    (Reachable.step c6s7 (Event.transportClose 1) c6s8
      (Reachable.step c6s6 (Event.message 1 c6m2 {} 3) c6s7
        (Reachable.step c6s5 (Event.message 2 c6m1 {} 2) c6s6
          (Reachable.step c6s4 (Event.upgrade 2) c6s5
            (Reachable.step c6s3 (Event.message 1 c6m1 {} 1) c6s4
              (Reachable.step c6s2 (Event.upgrade 1) c6s3
                (Reachable.step c6s1 (Event.message 0 c6m0 {} 0) c6s2
                  (Reachable.step initState (Event.upgrade 0) c6s1
                    Reachable.init (by decide))
                  (by decide))
                (by decide))
              (by decide))
            (by decide))
          (by decide))
        (by decide))
      (by decide))
    (by decide)

end Relay
